import Mathlib

/-!
# arangomigo: the migration execution engine (`impls.go`)

A shallow embedding of `perform`, `loadDb`, `migrateNow`, `Database.migrate`
and `Collection.migrate`.

* Go's `error` values are `Option Error` (`none` is `nil`).
* Interface values that may be `nil` (`driver.Database`, `driver.Client`) are
  `Option`s; calling a method on `nil`, or indexing an empty slice, is a
  run-time panic, modelled by `Outcome.panic`.
* The ArangoDB driver is external: it is a parameter, `Driver σ`, a record of
  the operations the engine calls, over an arbitrary backend state `σ`.
* Every backend call and every `migrate` invocation is logged in a ghost
  trace, so that "is invoked", "is not invoked" and "before" can be stated.
* Migrations are Go pointers mutated in place (`o.cl = cl`, `d.db = newdb`);
  here `migrate` returns the updated value and the callers write it back into
  the catalog (catalog entries are assumed not to alias one another).
-/

namespace Arangomigo

/-! ## Errors and outcomes -/

/-- Go `error` values as the engine can tell them apart: `arango` is a
`driver.ArangoError` (reported by the remote service), with the flag saying
whether `driver.IsNotFound` holds of it; `plain` is any other error
(`errors.New`, transport and client failures). -/
inductive Error where
  | arango (notFound : Bool) (msg : String)
  | plain (msg : String)
deriving DecidableEq, Repr

/-- Models `driver.IsArangoError(err)`. -/
def IsArangoError : Option Error → Bool
  | some (.arango _ _) => true
  | _ => false

/-- Models `driver.IsNotFound(err)`. -/
def IsNotFound : Option Error → Bool
  | some (.arango true _) => true
  | _ => false

/-- Source: `func e(err error) bool { return err != nil }`. -/
def e (err : Option Error) : Bool := err.isSome

/-- What a Go call does: it returns a value, or the goroutine panics. -/
inductive Outcome (α : Type) where
  | ret (a : α)
  | panic (msg : String)
deriving DecidableEq, Repr

/-- Panic message of a method call on a nil interface value or nil pointer. -/
def nilDeref : String := "invalid memory address or nil pointer dereference"

/-- Panic message of indexing an empty slice at 0. -/
def indexOutOfRange : String := "index out of range [0] with length 0"

/-- Source: `const mig_col string = "arangomigo"`. -/
def mig_col : String := "arangomigo"

/-! ## Data model -/

/-- Modelled from the spec: the action of a migration; the type and its
constants `CREATE`, `DELETE`, `MODIFY` are declared outside `impls.go`.
`other` is any further value of the underlying string type. -/
inductive Action where
  | CREATE
  | DELETE
  | MODIFY
  | other (name : String)
deriving DecidableEq, Repr

/-- The action as formatted by `%s`. -/
def Action.toString : Action → String
  | .CREATE => "create"
  | .DELETE => "delete"
  | .MODIFY => "modify"
  | .other name => name

/-- A `driver.Client` value. -/
structure Client where
  Endpoints : List String
deriving DecidableEq, Repr

/-- A `driver.Database` handle; `Name` is what `db.Name()` returns. -/
structure DbHandle where
  Name : String
deriving DecidableEq, Repr

/-- A `driver.Collection` handle. -/
structure ColHandle where
  db : String
  name : String
deriving DecidableEq, Repr

/-- Modelled from the spec: the common part embedded in every migration
(`Operation`, declared outside `impls.go`): identity and content hash. -/
structure Operation where
  fileName : String
  checksum : String
deriving DecidableEq, Repr

/-- An entry of `Database.Allowed`. -/
structure User where
  Username : String
  Password : String
deriving DecidableEq, Repr

/-- Models `driver.CreateDatabaseUserOptions`; `Active` is a nullable flag. -/
structure CreateDatabaseUserOptions where
  UserName : String
  Password : String
  Active : Option Bool
deriving DecidableEq, Repr

/-- Models `driver.CreateDatabaseOptions`. -/
structure CreateDatabaseOptions where
  Users : List CreateDatabaseUserOptions
deriving DecidableEq, Repr

/-- Modelled from the spec: the Database migration (struct declared outside
`impls.go`; the fields are the ones `impls.go` reads and writes). `cl` and
`db` are the client and the live handle stored on the instance. -/
structure Database extends Operation where
  Name : String
  Action : Action
  Allowed : List User
  cl : Option Client
  db : Option DbHandle
deriving DecidableEq, Repr

/-- Modelled from the spec: the Collection migration (struct declared outside
`impls.go`). -/
structure Collection extends Operation where
  Action : Action
deriving DecidableEq, Repr

/-- The implementers of the `Migration` interface in this source. The
constructor is the dynamic type that `m.(*Database)` tests. -/
inductive Migration where
  | database (d : Database)
  | collection (c : Collection)
deriving DecidableEq, Repr

/-- Source: `func (op *Operation) FileName() string`. -/
def Migration.FileName : Migration → String
  | .database d => d.fileName
  | .collection c => c.fileName

/-- Source: `func (op *Operation) CheckSum() string`. -/
def Migration.CheckSum : Migration → String
  | .database d => d.checksum
  | .collection c => c.checksum

/-- Modelled from the spec: `PairedMigrations` (declared outside `impls.go`):
a mandatory `change` and an optional `undo` (`nil` when absent). -/
structure PairedMigrations where
  change : Migration
  undo : Option Migration
deriving DecidableEq, Repr

/-- Source: `type migration struct { _key string; checksum string }`, the
ledger row. -/
structure migration where
  _key : String
  checksum : String
deriving DecidableEq, Repr

/-- Modelled from the spec: the configuration (declared outside `impls.go`). -/
structure Config where
  Db : String
  MigrationsPath : String
  Endpoints : List String
  Username : String
  Password : String
deriving DecidableEq, Repr

/-! ## The driver and the ghost trace -/

/-- The backend capability surface, over a backend state `σ`. A failed call
returns the error and no handle (the handle is `nil`). The first seven are the
calls `impls.go` makes; `UpdateDocument` and `RemoveDocument` are the calls of
`driver.Collection` that change or delete a stored document, which `impls.go`
never makes. -/
structure Driver (σ : Type) where
  Database : σ → String → σ × Except Error DbHandle
  CreateDatabase : σ → String → CreateDatabaseOptions → σ × Except Error DbHandle
  Remove : σ → DbHandle → σ × Option Error
  Collection : σ → DbHandle → String → σ × Except Error ColHandle
  CreateCollection : σ → DbHandle → String → σ × Except Error ColHandle
  DocumentExists : σ → ColHandle → String → σ × Except Error Bool
  CreateDocument : σ → ColHandle → migration → σ × Option Error
  UpdateDocument : σ → ColHandle → String → migration → σ × Option Error
  RemoveDocument : σ → ColHandle → String → σ × Option Error

/-- What the engine does that an observer can see: the backend calls it
issues and the `migrate` invocations it makes (`apply` for a `change`,
`undo` for an `undo`). -/
inductive Event where
  | openDatabase (name : String)
  | createDatabase (name : String) (options : CreateDatabaseOptions)
  | removeDatabase (db : DbHandle)
  | collection (db : DbHandle) (name : String)
  | createCollection (db : DbHandle) (name : String)
  | documentExists (col : ColHandle) (key : String)
  | createDocument (col : ColHandle) (doc : migration)
  | updateDocument (col : ColHandle) (key : String) (doc : migration)
  | removeDocument (col : ColHandle) (key : String)
  | apply (m : Migration)
  | undo (m : Migration)
deriving DecidableEq, Repr

/-- Engine state: the backend and the trace of events so far. -/
structure St (σ : Type) where
  backend : σ
  trace : List Event

/-- Append an event to the trace. -/
def St.log {σ : Type} (s : St σ) (ev : Event) : St σ :=
  { s with trace := s.trace ++ [ev] }

/-- The error of a Go `(value, error)` pair. -/
def errOf {α : Type} : Except Error α → Option Error
  | .ok _ => none
  | .error err => some err

/-- The value of a Go `(value, error)` pair: `nil` on failure. -/
def valOf {α : Type} : Except Error α → Option α
  | .ok a => some a
  | .error _ => none

/-- The call `cl.Database(ctx, name)`. -/
def callDatabase {σ : Type} (drv : Driver σ) (s : St σ) (name : String) :
    St σ × Except Error DbHandle :=
  (⟨(drv.Database s.backend name).1, s.trace ++ [.openDatabase name]⟩,
    (drv.Database s.backend name).2)

/-- The call `cl.CreateDatabase(ctx, name, &options)`. -/
def callCreateDatabase {σ : Type} (drv : Driver σ) (s : St σ) (name : String)
    (options : CreateDatabaseOptions) : St σ × Except Error DbHandle :=
  (⟨(drv.CreateDatabase s.backend name options).1, s.trace ++ [.createDatabase name options]⟩,
    (drv.CreateDatabase s.backend name options).2)

/-- The call `db.Remove(ctx)`. -/
def callRemove {σ : Type} (drv : Driver σ) (s : St σ) (db : DbHandle) :
    St σ × Option Error :=
  (⟨(drv.Remove s.backend db).1, s.trace ++ [.removeDatabase db]⟩,
    (drv.Remove s.backend db).2)

/-- The call `db.Collection(ctx, name)`. -/
def callCollection {σ : Type} (drv : Driver σ) (s : St σ) (db : DbHandle) (name : String) :
    St σ × Except Error ColHandle :=
  (⟨(drv.Collection s.backend db name).1, s.trace ++ [.collection db name]⟩,
    (drv.Collection s.backend db name).2)

/-- The call `db.CreateCollection(ctx, name, nil)`. -/
def callCreateCollection {σ : Type} (drv : Driver σ) (s : St σ) (db : DbHandle)
    (name : String) : St σ × Except Error ColHandle :=
  (⟨(drv.CreateCollection s.backend db name).1, s.trace ++ [.createCollection db name]⟩,
    (drv.CreateCollection s.backend db name).2)

/-- The call `mcol.DocumentExists(ctx, key)`. -/
def callDocumentExists {σ : Type} (drv : Driver σ) (s : St σ) (col : ColHandle)
    (key : String) : St σ × Except Error Bool :=
  (⟨(drv.DocumentExists s.backend col key).1, s.trace ++ [.documentExists col key]⟩,
    (drv.DocumentExists s.backend col key).2)

/-- The call `mcol.CreateDocument(ctx, doc)`. -/
def callCreateDocument {σ : Type} (drv : Driver σ) (s : St σ) (col : ColHandle)
    (doc : migration) : St σ × Option Error :=
  (⟨(drv.CreateDocument s.backend col doc).1, s.trace ++ [.createDocument col doc]⟩,
    (drv.CreateDocument s.backend col doc).2)

/-- The call `col.UpdateDocument(ctx, key, doc)`. -/
def callUpdateDocument {σ : Type} (drv : Driver σ) (s : St σ) (col : ColHandle)
    (key : String) (doc : migration) : St σ × Option Error :=
  (⟨(drv.UpdateDocument s.backend col key doc).1, s.trace ++ [.updateDocument col key doc]⟩,
    (drv.UpdateDocument s.backend col key doc).2)

/-- The call `col.RemoveDocument(ctx, key)`. -/
def callRemoveDocument {σ : Type} (drv : Driver σ) (s : St σ) (col : ColHandle)
    (key : String) : St σ × Option Error :=
  (⟨(drv.RemoveDocument s.backend col key).1, s.trace ++ [.removeDocument col key]⟩,
    (drv.RemoveDocument s.backend col key).2)

/-! ## The migration variants -/

/-- Lines 174 to 183 of `Database.migrate`: the options built by the loop
over `d.Allowed`, one entry per allowed user, each with `Active: &active`
where `active := true`. -/
def Database.createOptions (d : Database) : CreateDatabaseOptions :=
  { Users := d.Allowed.map fun u =>
      { UserName := u.Username, Password := u.Password, Active := some true } }

/-- Source: `func (d *Database) migrate(ctx, db *driver.Database) error`.
Returns the state, the instance as mutated (`d.db = newdb`) and the error. -/
def Database.migrate {σ : Type} (drv : Driver σ) (d : Database) (db : Option DbHandle)
    (s : St σ) : St σ × Database × Outcome (Option Error) :=
  match d.Action with
  | .CREATE =>
    match d.db with
    | some _ => (s, d, .ret none)
    | none =>
      let options := d.createOptions
      match d.cl with
      | none => (s, d, .panic nilDeref)
      | some _ =>
        match callCreateDatabase drv s d.Name options with
        | (s1, .ok newdb) => (s1, { d with db := some newdb }, .ret none)
        | (s1, .error err) => (s1, d, .ret (some err))
  | .DELETE =>
    match db with
    | none => (s, d, .panic nilDeref)
    | some h =>
      match callRemove drv s h with
      | (s1, err) => (s1, d, .ret err)
  | a =>
    (s, d, .ret (some (.plain ("Database migration does not support op " ++ a.toString))))

/-- Source: `func (cl Collection) migrate(ctx, db *driver.Database) error`. -/
def Collection.migrate {σ : Type} (_drv : Driver σ) (cl : Collection)
    (_db : Option DbHandle) (s : St σ) : St σ × Outcome (Option Error) :=
  match cl.Action with
  | .DELETE => (s, .ret none)
  | _ => (s, .ret none)

/-- Dynamic dispatch of `m.migrate(ctx, &db)` on the interface value. -/
def Migration.migrate {σ : Type} (drv : Driver σ) (m : Migration) (db : Option DbHandle)
    (s : St σ) : St σ × Migration × Outcome (Option Error) :=
  match m with
  | .database d =>
    match d.migrate drv db s with
    | (s1, d1, r) => (s1, .database d1, r)
  | .collection c =>
    match c.migrate drv db s with
    | (s1, r) => (s1, .collection c, r)

/-! ## The execution engine -/

/-- The recording test of `migrateNow`:
`temp, ok := m.(*Database); !ok || temp.Action == MODIFY`. -/
def recorded : Migration → Bool
  | .database temp => temp.Action == .MODIFY
  | .collection _ => true

/-- The body of the `for _, pm := range pms` loop of `migrateNow`. The last
component is `none` when the loop goes on to the next element and `some r`
when `migrateNow` returns (or panics) from inside the body. -/
def migrateOne {σ : Type} (drv : Driver σ) (db : Option DbHandle) (mcol : ColHandle)
    (pm : PairedMigrations) (s : St σ) :
    St σ × PairedMigrations × Option (Outcome (Option Error)) :=
  let m := pm.change
  let u := pm.undo
  match callDocumentExists drv s mcol m.FileName with
  | (s1, .error err) => (s1, pm, some (.ret (some err)))
  | (s1, .ok true) => (s1, pm, none)
  | (s1, .ok false) =>
    match m.migrate drv db (s1.log (.apply m)) with
    | (s2, m1, .panic msg) => (s2, { pm with change := m1 }, some (.panic msg))
    | (s2, m1, .ret err) =>
      if !e err then
        if recorded m1 then
          match callCreateDocument drv s2 mcol
              { _key := m1.FileName, checksum := m1.CheckSum } with
          | (s3, some err1) => (s3, { pm with change := m1 }, some (.ret (some err1)))
          | (s3, none) => (s3, { pm with change := m1 }, none)
        else (s2, { pm with change := m1 }, none)
      else
        match e err && IsArangoError err, u with
        | true, some um =>
          match um.migrate drv db (s2.log (.undo um)) with
          | (s3, u1, .panic msg) => (s3, { change := m1, undo := some u1 }, some (.panic msg))
          | (s3, u1, .ret err1) =>
            if e err1 then (s3, { change := m1, undo := some u1 }, some (.ret err1))
            else (s3, { change := m1, undo := some u1 }, none)
        | _, _ => (s2, { pm with change := m1 }, some (.ret err))

/-- The `for _, pm := range pms` loop of `migrateNow`, followed by
`return nil`. Returns the catalog with the instances as mutated. -/
def migrateLoop {σ : Type} (drv : Driver σ) (db : Option DbHandle) (mcol : ColHandle) :
    List PairedMigrations → St σ → St σ × List PairedMigrations × Outcome (Option Error)
  | [], s => (s, [], .ret none)
  | pm :: rest, s =>
    match migrateOne drv db mcol pm s with
    | (s1, pm1, some r) => (s1, pm1 :: rest, r)
    | (s1, pm1, none) =>
      match migrateLoop drv db mcol rest s1 with
      | (s2, rest1, r) => (s2, pm1 :: rest1, r)

/-- Source: `func migrateNow(ctx, db driver.Database, pms []PairedMigrations) error`. -/
def migrateNow {σ : Type} (drv : Driver σ) (db : Option DbHandle)
    (pms : List PairedMigrations) (s : St σ) :
    St σ × List PairedMigrations × Outcome (Option Error) :=
  match db with
  | none => (s, pms, .panic nilDeref)
  | some h =>
    match callCollection drv s h mig_col with
    | (s1, .error err) => (s1, pms, .ret (some err))
    | (s1, .ok mcol) => migrateLoop drv db mcol pms s1

/-- Lines 135 to 143 of `loadDb`: the ledger-collection check and the
`return db, err`. -/
def loadDbFinish {σ : Type} (drv : Driver σ) (db : Option DbHandle) (err : Option Error)
    (pm : List PairedMigrations) (s : St σ) :
    St σ × List PairedMigrations × Outcome (Option DbHandle × Option Error) :=
  if err = none then
    match db with
    | none => (s, pm, .panic nilDeref)
    | some h =>
      match callCollection drv s h mig_col with
      | (s1, r) =>
        if IsNotFound (errOf r) then
          match callCreateCollection drv s1 h mig_col with
          | (s2, _) => (s2, pm, .ret (db, err))
        else (s1, pm, .ret (db, err))
  else (s, pm, .ret (db, err))

/-- Source: `func loadDb(ctx, conf Config, cl driver.Client, pm *[]PairedMigrations)
(driver.Database, error)`. Returns the state, the list `*pm` as left by the
call, and the returned pair. -/
def loadDb {σ : Type} (drv : Driver σ) (conf : Config) (cl : Option Client)
    (pm : List PairedMigrations) (s : St σ) :
    St σ × List PairedMigrations × Outcome (Option DbHandle × Option Error) :=
  let dbName := conf.Db
  match cl with
  | none => (s, pm, .panic nilDeref)
  | some c =>
    match callDatabase drv s dbName with
    | (s1, r) =>
      let db := valOf r
      let err := errOf r
      if err ≠ none && IsNotFound err then
        match pm with
        | [] => (s1, pm, .panic indexOutOfRange)
        | p0 :: rest =>
          match p0.change with
          | .collection _ =>
            (s1, pm, .ret (none, some (.plain ("Database " ++ dbName ++
              " does not exist and first migration is not the DB creation"))))
          | .database o =>
            if o.Name ≠ dbName then
              (s1, pm, .ret (none,
                some (.plain "Configuration's dbname does not match migration name")))
            else
              let o1 : Database := { o with cl := some c }
              match o1.migrate drv db (s1.log (.apply (.database o1))) with
              | (s2, o2, .panic msg) =>
                (s2, { p0 with change := .database o2 } :: rest, .panic msg)
              | (s2, o2, .ret err1) =>
                if err1 = none then
                  match o2.db with
                  | none => (s2, { p0 with change := .database o2 } :: rest, .panic nilDeref)
                  | some h =>
                    loadDbFinish drv (some h) err1
                      ({ p0 with change := .database o2 } :: rest) s2
                else
                  loadDbFinish drv db err1 ({ p0 with change := .database o2 } :: rest) s2
      else if err = none then
        match pm with
        | [] => (s1, pm, .panic indexOutOfRange)
        | p0 :: rest =>
          match p0.change with
          | .database _ => loadDbFinish drv db err rest s1
          | .collection _ => loadDbFinish drv db err pm s1
      else loadDbFinish drv db err pm s1

/-- Source: `func perform(ctx, c Config) error`. The catalog loader
`migrations` and the constructor `client` are external and are parameters;
each returns a Go `(value, error)` pair. -/
def perform {σ : Type} (drv : Driver σ)
    (migrations : String → List PairedMigrations × Option Error)
    (client : Config → Option Client × Option Error)
    (c : Config) (s : St σ) : St σ × Outcome (Option Error) :=
  match migrations c.MigrationsPath with
  | (pm, err) =>
    if e err then (s, .ret err)
    else
      match client c with
      | (cl, _) =>
        match loadDb drv c cl pm s with
        | (s1, _, .panic msg) => (s1, .panic msg)
        | (s1, pm1, .ret (db, _)) =>
          match migrateNow drv db pm1 s1 with
          | (s2, _, r) => (s2, r)

/-! ## A reference backend -/

/-- The attributes of the ledger row that reach the backend. The driver's
encoder, like `encoding/json`, only sees the exported fields of a struct; both
fields of `migration` (`_key` and `checksum`) are unexported, so the document
posted by `mcol.CreateDocument(ctx, migration{...})` is `{}`. -/
def migration.posted (_doc : migration) : List (String × String) := []

/-- The key under which the backend stores a document: the `_key` attribute of
the posted document when it has one, otherwise a key the server generates,
numbered here in the order of generation. A generated key is a string of the
server's choosing; it is kept apart from the names a client looks up. -/
inductive DocKey where
  | named (key : String)
  | generated (n : Nat)
deriving DecidableEq, Repr

/-- A stored document: its key and the attributes that were posted. -/
structure Document where
  key : DocKey
  attrs : List (String × String)
deriving DecidableEq, Repr

/-- A reference model of the external backend: an in-memory store offering
the capability surface the engine consumes (open-database-by-name,
create-database, delete-database, collection lookup, create-collection,
document-exists, document-create) and the update and removal of a document.
`dbs` are the existing databases, `cols` the existing collections, `docs` the
stored documents. `faults` is a plan of injected failures: every call consumes
its head, and fails with that error when it is `some`. `nextKey` numbers the
keys the server generates. -/
structure World where
  dbs : List String
  cols : List ColHandle
  docs : List (ColHandle × Document)
  faults : List (Option Error)
  nextKey : Nat := 0
deriving DecidableEq, Repr

/-- The backend's not-found error. -/
def notFound : Error := .arango true "not found"

/-- The backend's error for a name or key that is already taken. -/
def conflict : Error := .arango false "conflict"

/-- Consume the head of the fault plan. -/
def World.pop (w : World) : Option Error × World :=
  match w.faults with
  | [] => (none, w)
  | f :: fs => (f, { w with faults := fs })

/-- Whether the collection holds a document stored under the key. -/
def World.hasDoc (w : World) (col : ColHandle) (key : String) : Bool :=
  decide ((col, DocKey.named key) ∈ w.docs.map fun r => (r.1, r.2.key))

/-- The rows of the ledger collection of a database, oldest first. -/
def World.ledger (w : World) (db : String) : List Document :=
  (w.docs.filter fun r => r.1 = ⟨db, mig_col⟩).map fun r => r.2

/-- Open a database by name. -/
def World.Database (w : World) (name : String) : World × Except Error DbHandle :=
  match w.pop with
  | (some err, w1) => (w1, .error err)
  | (none, w1) =>
    if name ∈ w1.dbs then (w1, .ok ⟨name⟩) else (w1, .error notFound)

/-- Create a database; the new database has no collections. -/
def World.CreateDatabase (w : World) (name : String) (_options : CreateDatabaseOptions) :
    World × Except Error DbHandle :=
  match w.pop with
  | (some err, w1) => (w1, .error err)
  | (none, w1) =>
    if name ∈ w1.dbs then (w1, .error conflict)
    else
      ({ w1 with
          dbs := w1.dbs ++ [name]
          cols := w1.cols.filter fun c => c.db ≠ name
          docs := w1.docs.filter fun r => r.1.db ≠ name }, .ok ⟨name⟩)

/-- Delete a database with its collections and documents. -/
def World.Remove (w : World) (db : DbHandle) : World × Option Error :=
  match w.pop with
  | (some err, w1) => (w1, some err)
  | (none, w1) =>
    if db.Name ∈ w1.dbs then
      ({ w1 with
          dbs := w1.dbs.filter fun n => n ≠ db.Name
          cols := w1.cols.filter fun c => c.db ≠ db.Name
          docs := w1.docs.filter fun r => r.1.db ≠ db.Name }, none)
    else (w1, some notFound)

/-- Look a collection up. -/
def World.Collection (w : World) (db : DbHandle) (name : String) :
    World × Except Error ColHandle :=
  match w.pop with
  | (some err, w1) => (w1, .error err)
  | (none, w1) =>
    if db.Name ∈ w1.dbs ∧ (⟨db.Name, name⟩ : ColHandle) ∈ w1.cols then
      (w1, .ok ⟨db.Name, name⟩)
    else (w1, .error notFound)

/-- Create a collection; the new collection is empty. -/
def World.CreateCollection (w : World) (db : DbHandle) (name : String) :
    World × Except Error ColHandle :=
  match w.pop with
  | (some err, w1) => (w1, .error err)
  | (none, w1) =>
    if db.Name ∈ w1.dbs then
      if (⟨db.Name, name⟩ : ColHandle) ∈ w1.cols then (w1, .error conflict)
      else
        ({ w1 with
            cols := w1.cols ++ [⟨db.Name, name⟩]
            docs := w1.docs.filter fun r => r.1 ≠ ⟨db.Name, name⟩ }, .ok ⟨db.Name, name⟩)
    else (w1, .error notFound)

/-- Whether a document with the key exists (`false` in a missing collection). -/
def World.DocumentExists (w : World) (col : ColHandle) (key : String) :
    World × Except Error Bool :=
  match w.pop with
  | (some err, w1) => (w1, .error err)
  | (none, w1) => (w1, .ok (decide (col ∈ w1.cols) && w1.hasDoc col key))

/-- Store the posted document. When it has a `_key` attribute it is stored
under that key, which must be new in the collection; otherwise the server
stores it under a key it generates. -/
def World.CreateDocument (w : World) (col : ColHandle) (doc : migration) :
    World × Option Error :=
  match w.pop with
  | (some err, w1) => (w1, some err)
  | (none, w1) =>
    if col ∈ w1.cols then
      match doc.posted.lookup "_key" with
      | some key =>
        if w1.hasDoc col key then (w1, some conflict)
        else ({ w1 with docs := w1.docs ++ [(col, ⟨.named key, doc.posted⟩)] }, none)
      | none =>
        ({ w1 with
            docs := w1.docs ++ [(col, ⟨.generated w1.nextKey, doc.posted⟩)]
            nextKey := w1.nextKey + 1 }, none)
    else (w1, some notFound)

/-- Replace the attributes of the document stored under the key. -/
def World.UpdateDocument (w : World) (col : ColHandle) (key : String) (doc : migration) :
    World × Option Error :=
  match w.pop with
  | (some err, w1) => (w1, some err)
  | (none, w1) =>
    if col ∈ w1.cols ∧ w1.hasDoc col key = true then
      ({ w1 with
          docs := w1.docs.map fun r =>
            if r.1 = col ∧ r.2.key = .named key then (r.1, ⟨r.2.key, doc.posted⟩) else r },
        none)
    else (w1, some notFound)

/-- Delete the document stored under the key. -/
def World.RemoveDocument (w : World) (col : ColHandle) (key : String) :
    World × Option Error :=
  match w.pop with
  | (some err, w1) => (w1, some err)
  | (none, w1) =>
    if col ∈ w1.cols ∧ w1.hasDoc col key = true then
      ({ w1 with docs := w1.docs.filter fun r => ¬(r.1 = col ∧ r.2.key = .named key) }, none)
    else (w1, some notFound)

/-- The reference backend as a driver. -/
def refDriver : Driver World where
  Database := World.Database
  CreateDatabase := World.CreateDatabase
  Remove := World.Remove
  Collection := World.Collection
  CreateCollection := World.CreateCollection
  DocumentExists := World.DocumentExists
  CreateDocument := World.CreateDocument
  UpdateDocument := World.UpdateDocument
  RemoveDocument := World.RemoveDocument

/-! ## Observations on traces -/

/-- The events logged between two states of one run. -/
def eventsSince {σ : Type} (s s1 : St σ) : List Event :=
  s1.trace.drop s.trace.length

/-- The ledger rows whose creation the events issue, in order. -/
def ledgerWrites : List Event → List migration
  | [] => []
  | .createDocument _ doc :: evs => doc :: ledgerWrites evs
  | _ :: evs => ledgerWrites evs

/-- The number of create-database calls among the events. -/
def createDatabaseCalls : List Event → Nat
  | [] => 0
  | .createDatabase _ _ :: evs => createDatabaseCalls evs + 1
  | _ :: evs => createDatabaseCalls evs

/-- The number of `migrate` invocations (apply or undo) among the events. -/
def migrateCalls : List Event → Nat
  | [] => 0
  | .apply _ :: evs => migrateCalls evs + 1
  | .undo _ :: evs => migrateCalls evs + 1
  | _ :: evs => migrateCalls evs

/-- The ledger row `migrateNow` builds for a migration:
`migration{_key: m.FileName(), checksum: m.CheckSum()}`. -/
def ledgerRow (m : Migration) : migration :=
  { _key := m.FileName, checksum := m.CheckSum }

/-- The event is a call of the database-level backend capability that a
migration variant issues (create-database or delete-database). -/
def Event.isVariantCall : Event → Bool
  | .createDatabase _ _ => true
  | .removeDatabase _ => true
  | _ => false

/-- The schema state and the stored documents of a backend (its databases,
collections and documents), without the fault plan. -/
def World.data (w : World) : List String × List ColHandle × List (ColHandle × Document) :=
  (w.dbs, w.cols, w.docs)

/-- Whether the ledger of database `db` has a row for `key`. -/
def World.recordedIn (w : World) (db : String) (key : String) : Bool :=
  decide ((⟨db, mig_col⟩ : ColHandle) ∈ w.cols) && w.hasDoc ⟨db, mig_col⟩ key

/-- The backend after the bootstrap of an absent database `name`: the
database exists, with an empty ledger collection. -/
def bootstrapped (w : World) (name : String) : World :=
  { dbs := w.dbs ++ [name]
    cols := (w.cols.filter fun c => c.db ≠ name) ++ [⟨name, mig_col⟩]
    docs := (w.docs.filter fun r => r.1.db ≠ name).filter fun r => r.1 ≠ ⟨name, mig_col⟩
    faults := []
    nextKey := w.nextKey }

/-- The events of a run over migrations that are each looked up, applied and
recorded. -/
def recordedRun (mcol : ColHandle) : List PairedMigrations → List Event
  | [] => []
  | pm :: rest =>
    .documentExists mcol pm.change.FileName :: .apply pm.change ::
      .createDocument mcol (ledgerRow pm.change) :: recordedRun mcol rest

/-! ## Concrete scenarios -/

/-- A backend with nothing in it. -/
def emptyWorld : World := { dbs := [], cols := [], docs := [], faults := [] }

/-- A backend where database "shop" exists with an empty ledger collection. -/
def shopWorld : World :=
  { dbs := ["shop"], cols := [⟨"shop", mig_col⟩], docs := [], faults := [] }

/-- The handle of database "shop". -/
def shopDb : DbHandle := ⟨"shop"⟩

/-- The ledger collection of database "shop". -/
def shopLedger : ColHandle := ⟨"shop", mig_col⟩

/-- A configuration whose target database is "shop". -/
def shopConfig : Config :=
  { Db := "shop", MigrationsPath := "migrations", Endpoints := [], Username := "root",
    Password := "" }

/-- A client value. -/
def someClient : Client := ⟨[]⟩

/-- The migration CreateDB("shop"), as the catalog builds it. -/
def createShop : Database :=
  { fileName := "0001_shop", checksum := "aa", Name := "shop", Action := .CREATE,
    Allowed := [], cl := none, db := none }

/-- The migration CreateCollection("orders"). -/
def createOrders : Collection :=
  { fileName := "orders", checksum := "bb", Action := .CREATE }

/-- CreateDB("shop") holding a client but no handle: applied where "shop"
already exists, its create-database call is refused by the backend. -/
def recreateShop : Database := { createShop with cl := some someClient }

/-- A Database migration with action delete, named like the target. -/
def dropShop : Database := { createShop with fileName := "0009_drop", Action := .DELETE }

/-- A Database migration with action modify, named like the target. -/
def alterShop : Database := { createShop with fileName := "0005_alter", Action := .MODIFY }

/-- A backend where "shop" exists and its ledger holds a row stored under the
file name "orders". -/
def shopWorldWithOrders : World :=
  { shopWorld with
    docs := [(shopLedger, { key := .named "orders", attrs := [("checksum", "bb")] })] }

/-- The backend of `shopWorld` that refuses its third call with a
backend-reported error and accepts every other call. -/
def flakyShopWorld : World :=
  { shopWorld with faults := [none, none, some (.arango false "not authorized")] }

/-- A catalog with the single change DeleteDB("shop"), whose undo is a
Collection migration. -/
def dropCatalog : List PairedMigrations :=
  [⟨.database dropShop, some (.collection createOrders)⟩]

/-- What may follow the change's `migrate` inside the events of one catalog
entry, after the database-level calls of the change: nothing, the creation of
the entry's ledger row, or the entry's undo with its database-level calls. -/
def isOutcome (mcol : ColHandle) (pm : PairedMigrations) : List Event → Bool
  | [] => true
  | [.createDocument col doc] => col == mcol && doc == ledgerRow pm.change
  | .undo u :: calls => pm.undo == some u && calls.all Event.isVariantCall
  | _ => false

/-- What may follow the ledger lookup inside the events of one catalog entry:
nothing, or the apply of the entry's change, its database-level calls and an
outcome. -/
def isApplied (mcol : ColHandle) (pm : PairedMigrations) : List Event → Bool
  | [] => true
  | .apply m :: after =>
    m == pm.change && isOutcome mcol pm (after.dropWhile Event.isVariantCall)
  | _ => false

/-- The events of one catalog entry: the ledger lookup by the change's
fileName, then at most one apply of the change, then at most one row creation
or undo. -/
def isSegment (mcol : ColHandle) (pm : PairedMigrations) : List Event → Bool
  | .documentExists col key :: rest =>
    col == mcol && key == pm.change.FileName && isApplied mcol pm rest
  | _ => false

/-- The event is the invocation of a change's `migrate`. -/
def Event.isApply : Event → Bool
  | .apply _ => true
  | _ => false

/-- The backend of `shopWorld` that refuses its first call with an error that
is not backend-reported. -/
def brokenShopWorld : World :=
  { shopWorld with faults := [some (.plain "connection reset")] }

/-- The backend of `shopWorld` that accepts its first call and refuses the
second with an error that is not backend-reported. -/
def laterBrokenShopWorld : World :=
  { shopWorld with faults := [none, some (.plain "connection reset")] }

/-- What lines 135 to 143 of `loadDb` do once the handle `h` is resolved in
state `sR`, as seen on the output `out` of `loadDb`: the handle is returned
with a nil error; when the lookup of the ledger collection reports not-found
the events are the lookup and one create-collection call for `mig_col`;
otherwise the lookup is the only event. -/
def provisions {σ : Type} (drv : Driver σ) (h : DbHandle) (sR : St σ)
    (out : St σ × List PairedMigrations × Outcome (Option DbHandle × Option Error)) : Prop :=
  out.2.2 = .ret (some h, none) ∧
  (IsNotFound (errOf (callCollection drv sR h mig_col).2) = true →
    eventsSince sR out.1 = [.collection h mig_col, .createCollection h mig_col]) ∧
  (IsNotFound (errOf (callCollection drv sR h mig_col).2) = false →
    eventsSince sR out.1 = [.collection h mig_col])

/-- A backend where database "shop" exists and has no ledger collection. -/
def bareShopWorld : World := { dbs := ["shop"], cols := [], docs := [], faults := [] }

/-- The unsupported-operation error of `Database.migrate` for an action. -/
def unsupported (a : Action) : Error :=
  .plain ("Database migration does not support op " ++ a.toString)

/-- The user entries `Database.migrate` passes to create-database: one per
allowed user, in order, with that user's name and password, marked active. -/
def activeUsers (allowed : List User) : List CreateDatabaseUserOptions :=
  allowed.map fun u => { UserName := u.Username, Password := u.Password, Active := some true }

/-- CreateDB("shop") with two allowed users, holding a client and no handle. -/
def createShopWithUsers : Database :=
  { createShop with
    Allowed := [⟨"ann", "pw1"⟩, ⟨"bob", "pw2"⟩]
    cl := some someClient }

/-- The number of undo invocations among the events. -/
def undoCalls : List Event → Nat
  | [] => 0
  | .undo _ :: evs => undoCalls evs + 1
  | _ :: evs => undoCalls evs

/-- What `DocumentExists` answers on the reference backend when it does not
fail: whether the collection exists and holds a document with the key. -/
def World.hasRow (w : World) (col : ColHandle) (key : String) : Bool :=
  decide (col ∈ w.cols) && w.hasDoc col key

/-- A Collection migration with the fileName of `createOrders` and another
checksum. -/
def createOrdersAgain : Collection :=
  { fileName := "orders", checksum := "dd", Action := .CREATE }

/-- The number of delete-database calls among the events. -/
def removeCalls : List Event → Nat
  | [] => 0
  | .removeDatabase _ :: evs => removeCalls evs + 1
  | _ :: evs => removeCalls evs

/-- The events `migrateNow` can issue: the opening of a collection, a ledger
lookup, a row creation, an apply or undo invocation, and the database-level
calls of the variants. Opening a database, creating a collection, and
updating or removing a document are not among them. -/
def Event.isRunEvent : Event → Bool
  | .openDatabase _ => false
  | .createCollection _ _ => false
  | .updateDocument _ _ _ => false
  | .removeDocument _ _ => false
  | _ => true

/-- The documents the server stores for `n` posted documents without
attributes, the first under the generated key numbered `k`. -/
def generatedRows : Nat → Nat → List Document
  | _, 0 => []
  | k, n + 1 => ⟨.generated k, []⟩ :: generatedRows (k + 1) n

/-- A catalog whose first change is recorded and whose second change is
refused by the backend and has no undo: "orders", then CreateDB("shop") while
"shop" exists. -/
def ordersThenRecreate : List PairedMigrations :=
  [⟨.collection createOrders, none⟩, ⟨.database recreateShop, none⟩]

/-! ## Lemmas on the variants and the trace -/

/-- The events since `s` are what was appended to the trace of `s`. -/
theorem eventsSince_append {σ : Type} (s s1 : St σ) (evs : List Event)
    (h : s1.trace = s.trace ++ evs) : eventsSince s s1 = evs := by
  simp [eventsSince, h]

/-- `Database.migrate` only appends to the trace, and what it appends is at
most one create-database or delete-database call. -/
theorem database_migrate_trace {σ : Type} (drv : Driver σ) (d : Database)
    (db : Option DbHandle) (s : St σ) :
    ∃ evs, (d.migrate drv db s).1.trace = s.trace ++ evs ∧
      evs.all Event.isVariantCall = true ∧ evs.length ≤ 1 := by
  unfold Database.migrate
  cases hA : d.Action with
  | CREATE =>
    cases hdb : d.db with
    | some h => exact ⟨[], by simp⟩
    | none =>
      cases hcl : d.cl with
      | none => exact ⟨[], by simp⟩
      | some c =>
        refine ⟨[.createDatabase d.Name d.createOptions], ?_,
          by simp [Event.isVariantCall], by simp⟩
        simp only [callCreateDatabase]
        split <;> rename_i h <;> simp only [Prod.mk.injEq] at h <;> rw [← h.1]
  | DELETE =>
    cases db with
    | none => exact ⟨[], by simp⟩
    | some h =>
      exact ⟨[.removeDatabase h], by simp [callRemove], by simp [Event.isVariantCall],
        by simp⟩
  | MODIFY => exact ⟨[], by simp⟩
  | other n => exact ⟨[], by simp⟩

/-- Any `migrate` only appends to the trace, at most one database-level call. -/
theorem migration_migrate_trace {σ : Type} (drv : Driver σ) (m : Migration)
    (db : Option DbHandle) (s : St σ) :
    ∃ evs, (m.migrate drv db s).1.trace = s.trace ++ evs ∧
      evs.all Event.isVariantCall = true ∧ evs.length ≤ 1 := by
  cases m with
  | database d => simpa [Migration.migrate] using database_migrate_trace drv d db s
  | collection c =>
    refine ⟨[], ?_, by simp, by simp⟩
    simp [Migration.migrate, Collection.migrate]
    split <;> rfl

/-- Database-level calls write no ledger row. -/
theorem ledgerWrites_variant (evs : List Event) (h : evs.all Event.isVariantCall = true) :
    ledgerWrites evs = [] := by
  induction evs with
  | nil => rfl
  | cons ev evs ih =>
    simp only [List.all_cons, Bool.and_eq_true] at h
    cases ev <;> simp_all [ledgerWrites, Event.isVariantCall]

/-- The ledger writes of consecutive events. -/
theorem ledgerWrites_append (xs ys : List Event) :
    ledgerWrites (xs ++ ys) = ledgerWrites xs ++ ledgerWrites ys := by
  induction xs with
  | nil => rfl
  | cons ev xs ih => cases ev <;> simp [ledgerWrites, ih]

/-- `migrate` changes neither the identity, nor the checksum, nor the action
of the instance. -/
theorem migration_migrate_frame {σ : Type} (drv : Driver σ) (m : Migration)
    (db : Option DbHandle) (s : St σ) :
    (m.migrate drv db s).2.1.FileName = m.FileName ∧
    (m.migrate drv db s).2.1.CheckSum = m.CheckSum ∧
    recorded (m.migrate drv db s).2.1 = recorded m := by
  cases m with
  | collection c => simp [Migration.migrate]
  | database d =>
    simp only [Migration.migrate, Database.migrate]
    cases hA : d.Action with
    | CREATE =>
      cases hdb : d.db with
      | some h => simp [Migration.FileName, Migration.CheckSum, recorded]
      | none =>
        cases hcl : d.cl with
        | none => simp [Migration.FileName, Migration.CheckSum, recorded]
        | some c =>
          simp only []
          split <;> simp [Migration.FileName, Migration.CheckSum, recorded, hA]
    | DELETE =>
      cases db with
      | none => simp [Migration.FileName, Migration.CheckSum, recorded]
      | some h => simp [Migration.FileName, Migration.CheckSum, recorded]
    | MODIFY => simp [Migration.FileName, Migration.CheckSum, recorded]
    | other n => simp [Migration.FileName, Migration.CheckSum, recorded]

/-- `Database.migrate` returns `nil` only for the actions create and delete. -/
theorem database_migrate_ok_action {σ : Type} (drv : Driver σ) (d : Database)
    (db : Option DbHandle) (s : St σ)
    (h : (d.migrate drv db s).2.2 = .ret none) :
    d.Action = .CREATE ∨ d.Action = .DELETE := by
  unfold Database.migrate at h
  cases hA : d.Action <;> simp_all

/-- The ledger lookup logs one event. -/
theorem callDocumentExists_trace {σ : Type} (drv : Driver σ) (s : St σ) (col : ColHandle)
    (key : String) :
    (callDocumentExists drv s col key).1.trace = s.trace ++ [.documentExists col key] := rfl

/-- Every `return` inside the loop body of `migrateNow` returns a non-nil
error. -/
theorem migrateOne_return_ne_nil {σ : Type} (drv : Driver σ) (db : Option DbHandle)
    (mcol : ColHandle) (pm : PairedMigrations) (s : St σ) :
    (migrateOne drv db mcol pm s).2.2 ≠ some (.ret none) := by
  unfold migrateOne
  simp only []
  split
  · simp
  · simp
  · split
    · simp
    · rename_i err _
      cases err with
      | none =>
        simp only [e, Option.isSome_none, Bool.not_false, if_true]
        split
        · split <;> simp
        · simp
      | some er =>
        simp only [e, Option.isSome_some, Bool.not_true, Bool.false_eq_true, if_false]
        split
        · split
          · simp
          · rename_i err1 _
            cases err1 <;> simp [e]
        · simp

/-- A run over `pre ++ post` whose `pre` part goes through is the run over
`pre` followed by the run over `post` from the state `pre` left: what is
proved of the loop at the head of a list holds at every catalog position. -/
theorem migrateLoop_append {σ : Type} (drv : Driver σ) (db : Option DbHandle)
    (mcol : ColHandle) (pre post : List PairedMigrations) :
    ∀ s0 : St σ, (migrateLoop drv db mcol pre s0).2.2 = .ret none →
      migrateLoop drv db mcol (pre ++ post) s0 =
        ((migrateLoop drv db mcol post (migrateLoop drv db mcol pre s0).1).1,
          (migrateLoop drv db mcol pre s0).2.1 ++
            (migrateLoop drv db mcol post (migrateLoop drv db mcol pre s0).1).2.1,
          (migrateLoop drv db mcol post (migrateLoop drv db mcol pre s0).1).2.2) := by
  induction pre with
  | nil => intro s0 _; simp [migrateLoop]
  | cons pm rest ih =>
    intro s0 h
    have hne := migrateOne_return_ne_nil drv db mcol pm s0
    rcases hone : migrateOne drv db mcol pm s0 with ⟨s1, pm1, _ | r⟩
    · simp only [migrateLoop, hone, List.cons_append] at h ⊢
      have := ih s1 h
      simp only [List.append_eq] at this ⊢
      rw [this]
    · simp only [migrateLoop, hone] at h
      rw [hone, h] at hne
      exact absurd rfl hne

/-- C1 (recording policy of `migrateNow`). When the engine reaches a paired
migration whose change has no ledger row (the lookup returns `false`) and whose
`migrate` returns `nil`, the row creations it issues while processing that
migration are exactly one, with key `fileName` and the change's checksum,
if the change is a non-database migration or a Database migration with action
modify, and none if it is a Database migration with action create or delete. -/
theorem recording_policy {σ : Type} (drv : Driver σ) (db : Option DbHandle) (mcol : ColHandle)
    (pm : PairedMigrations) (s s2 : St σ) (m1 : Migration)
    (hrow : (callDocumentExists drv s mcol pm.change.FileName).2 = .ok false)
    (happly : pm.change.migrate drv db
        ((callDocumentExists drv s mcol pm.change.FileName).1.log (.apply pm.change))
          = (s2, m1, .ret none)) :
    (∀ c, pm.change = .collection c →
      ledgerWrites (eventsSince s (migrateOne drv db mcol pm s).1)
        = [{ _key := c.fileName, checksum := c.checksum }]) ∧
    (∀ d, pm.change = .database d → d.Action = .MODIFY →
      ledgerWrites (eventsSince s (migrateOne drv db mcol pm s).1)
        = [{ _key := d.fileName, checksum := d.checksum }]) ∧
    (∀ d, pm.change = .database d → (d.Action = .CREATE ∨ d.Action = .DELETE) →
      ledgerWrites (eventsSince s (migrateOne drv db mcol pm s).1) = []) := by
  obtain ⟨evs, htr, hvar, -⟩ := migration_migrate_trace drv pm.change db
    ((callDocumentExists drv s mcol pm.change.FileName).1.log (.apply pm.change))
  obtain ⟨hfn, hcs, hrec⟩ := migration_migrate_frame drv pm.change db
    ((callDocumentExists drv s mcol pm.change.FileName).1.log (.apply pm.change))
  rw [happly] at htr hfn hcs hrec
  simp only at htr hfn hcs hrec
  have hw := ledgerWrites_variant evs hvar
  have hs2 : s2.trace = s.trace ++ (.documentExists mcol pm.change.FileName :: .apply pm.change :: evs) := by
    rw [htr]; simp [St.log, callDocumentExists]
  have key : ledgerWrites (eventsSince s (migrateOne drv db mcol pm s).1) =
      if recorded pm.change then [{ _key := pm.change.FileName, checksum := pm.change.CheckSum }]
      else [] := by
    unfold migrateOne
    simp only []
    generalize hce : callDocumentExists drv s mcol pm.change.FileName = ce at *
    obtain ⟨s1, r⟩ := ce
    simp only at hrow
    subst hrow
    simp only [happly, e, Option.isSome_none, Bool.not_false, if_true, hrec, hfn, hcs]
    by_cases hr : recorded pm.change = true
    · simp only [hr, if_true]
      have : (callCreateDocument drv s2 mcol
          { _key := pm.change.FileName, checksum := pm.change.CheckSum }).1.trace
          = s.trace ++ (.documentExists mcol pm.change.FileName :: .apply pm.change :: evs ++
              [.createDocument mcol { _key := pm.change.FileName, checksum := pm.change.CheckSum }]) := by
        simp [callCreateDocument, hs2]
      split <;> rename_i h <;> rw [h] at this <;>
        rw [eventsSince_append _ _ _ this] <;>
        simp [ledgerWrites, ledgerWrites_append, hw]
    · rw [Bool.not_eq_true] at hr
      simp only [hr, Bool.false_eq_true, if_false]
      rw [eventsSince_append _ _ _ hs2]
      simp [ledgerWrites, hw]
  refine ⟨?_, ?_, ?_⟩
  · intro c hc
    rw [key, hc]; simp [recorded, Migration.FileName, Migration.CheckSum]
  · intro d hd hA
    rw [key, hd]; simp [recorded, Migration.FileName, Migration.CheckSum, hA]
  · intro d hd hA
    rw [key, hd]
    rcases hA with hA | hA <;> simp [recorded, hA]


/-- C2 (idempotency check of `migrateNow`). When the lookup by
`change.fileName` finds a ledger row, the lookup is the only event of that
migration (no apply, no undo, no row creation), the entry is left as it was,
and the run goes on with the next migration from the state right after the
lookup. -/
theorem idempotency_check_skips {σ : Type} (drv : Driver σ) (db : Option DbHandle) (mcol : ColHandle)
    (pm : PairedMigrations) (rest : List PairedMigrations) (s : St σ)
    (hrow : (callDocumentExists drv s mcol pm.change.FileName).2 = .ok true) :
    eventsSince s (migrateOne drv db mcol pm s).1 = [.documentExists mcol pm.change.FileName] ∧
    migrateOne drv db mcol pm s =
      ((callDocumentExists drv s mcol pm.change.FileName).1, pm, none) ∧
    migrateLoop drv db mcol (pm :: rest) s =
      ((migrateLoop drv db mcol rest (callDocumentExists drv s mcol pm.change.FileName).1).1,
        pm :: (migrateLoop drv db mcol rest
          (callDocumentExists drv s mcol pm.change.FileName).1).2.1,
        (migrateLoop drv db mcol rest
          (callDocumentExists drv s mcol pm.change.FileName).1).2.2) := by
  have hone : migrateOne drv db mcol pm s =
      ((callDocumentExists drv s mcol pm.change.FileName).1, pm, none) := by
    unfold migrateOne
    simp only []
    generalize callDocumentExists drv s mcol pm.change.FileName = ce at *
    obtain ⟨s1, r⟩ := ce
    simp only at hrow
    subst hrow
    rfl
  refine ⟨?_, hone, ?_⟩
  · rw [hone]
    exact eventsSince_append _ _ _ (callDocumentExists_trace drv s mcol _)
  · simp only [migrateLoop, hone]

/-- C3 (rollback in `migrateNow`). When the change has no ledger row, its
`migrate` fails with a backend-reported error, an undo is present and the
undo's `migrate` succeeds, no ledger row is written for the migration and the
run goes on with the next migration from the state the undo left. -/
theorem rollback_continues {σ : Type} (drv : Driver σ) (db : Option DbHandle) (mcol : ColHandle)
    (pm : PairedMigrations) (rest : List PairedMigrations) (s s2 s3 : St σ)
    (m1 u u1 : Migration) (err : Error)
    (hrow : (callDocumentExists drv s mcol pm.change.FileName).2 = .ok false)
    (happly : pm.change.migrate drv db
        ((callDocumentExists drv s mcol pm.change.FileName).1.log (.apply pm.change))
          = (s2, m1, .ret (some err)))
    (hbackend : IsArangoError (some err) = true)
    (hundo : pm.undo = some u)
    (hundone : u.migrate drv db (s2.log (.undo u)) = (s3, u1, .ret none)) :
    ledgerWrites (eventsSince s s3) = [] ∧
    migrateOne drv db mcol pm s = (s3, { change := m1, undo := some u1 }, none) ∧
    migrateLoop drv db mcol (pm :: rest) s =
      ((migrateLoop drv db mcol rest s3).1,
        { change := m1, undo := some u1 } :: (migrateLoop drv db mcol rest s3).2.1,
        (migrateLoop drv db mcol rest s3).2.2) := by
  have hone : migrateOne drv db mcol pm s = (s3, { change := m1, undo := some u1 }, none) := by
    unfold migrateOne
    simp only []
    generalize callDocumentExists drv s mcol pm.change.FileName = ce at *
    obtain ⟨s1, r⟩ := ce
    simp only at hrow
    subst hrow
    simp only [happly, hundo, hbackend, hundone, e, Option.isSome_some, Option.isSome_none,
      Bool.not_true, Bool.and_self, Bool.false_eq_true, if_false]
  refine ⟨?_, hone, ?_⟩
  · obtain ⟨evs, htr, hvar, -⟩ := migration_migrate_trace drv pm.change db
      ((callDocumentExists drv s mcol pm.change.FileName).1.log (.apply pm.change))
    obtain ⟨evs1, htr1, hvar1, -⟩ := migration_migrate_trace drv u db (s2.log (.undo u))
    rw [happly] at htr
    rw [hundone] at htr1
    simp only [St.log, callDocumentExists] at htr htr1
    rw [eventsSince_append s s3
      (.documentExists mcol pm.change.FileName :: .apply pm.change :: evs ++ .undo u :: evs1)
      (by rw [htr1, htr]; simp)]
    simp [ledgerWrites, ledgerWrites_append, ledgerWrites_variant _ hvar,
      ledgerWrites_variant _ hvar1]
  · simp only [migrateLoop, hone]

/-- C4 (fatal abort in `migrateNow`). When the change has no ledger row and
its `migrate` fails, and the undo is absent or the error is not
backend-reported, `migrateNow` returns exactly that error in the state in which
the change's `migrate` returned: the events of the migration are the lookup,
the apply and at most one database-level call of the change itself, so no
undo, no ledger write and nothing for any later catalog entry. -/
theorem fatal_abort {σ : Type} (drv : Driver σ) (db : Option DbHandle) (mcol : ColHandle)
    (pm : PairedMigrations) (rest : List PairedMigrations) (s s2 : St σ)
    (m1 : Migration) (err : Error)
    (hrow : (callDocumentExists drv s mcol pm.change.FileName).2 = .ok false)
    (happly : pm.change.migrate drv db
        ((callDocumentExists drv s mcol pm.change.FileName).1.log (.apply pm.change))
          = (s2, m1, .ret (some err)))
    (hfatal : pm.undo = none ∨ IsArangoError (some err) = false) :
    migrateLoop drv db mcol (pm :: rest) s =
      (s2, { pm with change := m1 } :: rest, .ret (some err)) ∧
    ∃ evs, eventsSince s s2 =
        .documentExists mcol pm.change.FileName :: .apply pm.change :: evs ∧
      evs.all Event.isVariantCall = true ∧ evs.length ≤ 1 := by
  have hone : migrateOne drv db mcol pm s =
      (s2, { pm with change := m1 }, some (.ret (some err))) := by
    unfold migrateOne
    simp only []
    generalize callDocumentExists drv s mcol pm.change.FileName = ce at *
    obtain ⟨s1, r⟩ := ce
    simp only at hrow
    subst hrow
    simp only [happly, e, Option.isSome_some, Bool.not_true, Bool.false_eq_true, if_false,
      Bool.true_and]
    rcases hfatal with h | h
    · simp only [h]
      split <;> simp_all
    · simp only [h]
  refine ⟨by simp only [migrateLoop, hone], ?_⟩
  obtain ⟨evs, htr, hvar, hlen⟩ := migration_migrate_trace drv pm.change db
    ((callDocumentExists drv s mcol pm.change.FileName).1.log (.apply pm.change))
  rw [happly] at htr
  simp only [St.log, callDocumentExists] at htr
  exact ⟨evs, eventsSince_append _ _ _ (by rw [htr]; simp), hvar, hlen⟩

/-- C5 (undo failure in `migrateNow`). When the change's `migrate` fails with
a backend-reported error, an undo is present and the undo's `migrate` fails,
the run returns the undo's error in the state the undo left: no ledger row is
written and nothing is attempted for any later catalog entry. -/
theorem undo_failure_aborts {σ : Type} (drv : Driver σ) (db : Option DbHandle) (mcol : ColHandle)
    (pm : PairedMigrations) (rest : List PairedMigrations) (s s2 s3 : St σ)
    (m1 u u1 : Migration) (err uerr : Error)
    (hrow : (callDocumentExists drv s mcol pm.change.FileName).2 = .ok false)
    (happly : pm.change.migrate drv db
        ((callDocumentExists drv s mcol pm.change.FileName).1.log (.apply pm.change))
          = (s2, m1, .ret (some err)))
    (hbackend : IsArangoError (some err) = true)
    (hundo : pm.undo = some u)
    (hundone : u.migrate drv db (s2.log (.undo u)) = (s3, u1, .ret (some uerr))) :
    migrateLoop drv db mcol (pm :: rest) s =
      (s3, { change := m1, undo := some u1 } :: rest, .ret (some uerr)) ∧
    ledgerWrites (eventsSince s s3) = [] ∧
    ∃ evs evs1, eventsSince s s3 =
        .documentExists mcol pm.change.FileName :: .apply pm.change :: evs ++ .undo u :: evs1 ∧
      evs.all Event.isVariantCall = true ∧ evs1.all Event.isVariantCall = true := by
  have hone : migrateOne drv db mcol pm s =
      (s3, { change := m1, undo := some u1 }, some (.ret (some uerr))) := by
    unfold migrateOne
    simp only []
    generalize callDocumentExists drv s mcol pm.change.FileName = ce at *
    obtain ⟨s1, r⟩ := ce
    simp only at hrow
    subst hrow
    simp only [happly, hundo, hbackend, hundone, e, Option.isSome_some,
      Bool.not_true, Bool.and_self, Bool.false_eq_true, if_false, if_true]
  obtain ⟨evs, htr, hvar, -⟩ := migration_migrate_trace drv pm.change db
    ((callDocumentExists drv s mcol pm.change.FileName).1.log (.apply pm.change))
  obtain ⟨evs1, htr1, hvar1, -⟩ := migration_migrate_trace drv u db (s2.log (.undo u))
  rw [happly] at htr
  rw [hundone] at htr1
  simp only [St.log, callDocumentExists] at htr htr1
  have hev : eventsSince s s3 =
      .documentExists mcol pm.change.FileName :: .apply pm.change :: evs ++ .undo u :: evs1 :=
    eventsSince_append s s3 _ (by rw [htr1, htr]; simp)
  refine ⟨by simp only [migrateLoop, hone], ?_, evs, evs1, hev, hvar, hvar1⟩
  rw [hev]
  simp [ledgerWrites, ledgerWrites_append, ledgerWrites_variant _ hvar,
    ledgerWrites_variant _ hvar1]

/-! ## Witnesses of C1 to C5 -/

/-- Witness of C1: a Collection change with no ledger row is applied and recorded by one row. -/
theorem recording_policy_witness :
    ledgerWrites (eventsSince ⟨shopWorld, []⟩
      (migrateOne refDriver (some shopDb) shopLedger ⟨.collection createOrders, none⟩
        ⟨shopWorld, []⟩).1) = [{ _key := "orders", checksum := "bb" }] :=
  (recording_policy refDriver (some shopDb) shopLedger ⟨.collection createOrders, none⟩
    ⟨shopWorld, []⟩
    ⟨shopWorld, [.documentExists shopLedger "orders", .apply (.collection createOrders)]⟩
    (.collection createOrders) (by rfl) (by rfl)).1 createOrders rfl

/-- Witness of C2: a change whose row exists is only looked up. -/
theorem idempotency_check_skips_witness :
    eventsSince ⟨shopWorldWithOrders, []⟩
      (migrateOne refDriver (some shopDb) shopLedger ⟨.collection createOrders, none⟩
        ⟨shopWorldWithOrders, []⟩).1 = [.documentExists shopLedger "orders"] :=
  (idempotency_check_skips refDriver (some shopDb) shopLedger ⟨.collection createOrders, none⟩
    [] ⟨shopWorldWithOrders, []⟩ (by rfl)).1

/-- Witness of C3: CreateDB("shop") is refused where "shop" exists, the
Collection undo succeeds, the run completes and writes no row. -/
theorem rollback_continues_witness :
    ledgerWrites (eventsSince ⟨shopWorld, []⟩
      (migrateLoop refDriver (some shopDb) shopLedger
        [⟨.database recreateShop, some (.collection createOrders)⟩] ⟨shopWorld, []⟩).1) = [] ∧
    (migrateLoop refDriver (some shopDb) shopLedger
      [⟨.database recreateShop, some (.collection createOrders)⟩] ⟨shopWorld, []⟩).2.2
      = .ret none :=
  have h := rollback_continues refDriver (some shopDb) shopLedger
    ⟨.database recreateShop, some (.collection createOrders)⟩ [] ⟨shopWorld, []⟩
    ⟨shopWorld, [.documentExists shopLedger "0001_shop", .apply (.database recreateShop),
      .createDatabase "shop" ⟨[]⟩]⟩
    ⟨shopWorld, [.documentExists shopLedger "0001_shop", .apply (.database recreateShop),
      .createDatabase "shop" ⟨[]⟩, .undo (.collection createOrders)]⟩
    (.database recreateShop) (.collection createOrders) (.collection createOrders) conflict
    (by rfl) (by rfl) (by rfl) (by rfl) (by rfl)
  ⟨by rw [h.2.2]; exact h.1, by rw [h.2.2]; rfl⟩

/-- Witness of C4: the same refused change without an undo stops the run before the next entry. -/
theorem fatal_abort_witness :
    migrateLoop refDriver (some shopDb) shopLedger
        [⟨.database recreateShop, none⟩, ⟨.collection createOrders, none⟩] ⟨shopWorld, []⟩ =
      (⟨shopWorld, [.documentExists shopLedger "0001_shop", .apply (.database recreateShop),
          .createDatabase "shop" ⟨[]⟩]⟩,
        [⟨.database recreateShop, none⟩, ⟨.collection createOrders, none⟩],
        .ret (some conflict)) :=
  (fatal_abort refDriver (some shopDb) shopLedger ⟨.database recreateShop, none⟩
    [⟨.collection createOrders, none⟩] ⟨shopWorld, []⟩
    ⟨shopWorld, [.documentExists shopLedger "0001_shop", .apply (.database recreateShop),
      .createDatabase "shop" ⟨[]⟩]⟩
    (.database recreateShop) conflict (by rfl) (by rfl) (Or.inl rfl)).1

/-- Witness of C5: the same refused change with a failing undo stops the run
with the undo's error. -/
theorem undo_failure_aborts_witness :
    migrateLoop refDriver (some shopDb) shopLedger
        [⟨.database recreateShop, some (.database alterShop)⟩, ⟨.collection createOrders, none⟩]
        ⟨shopWorld, []⟩ =
      (⟨shopWorld, [.documentExists shopLedger "0001_shop", .apply (.database recreateShop),
          .createDatabase "shop" ⟨[]⟩, .undo (.database alterShop)]⟩,
        [⟨.database recreateShop, some (.database alterShop)⟩, ⟨.collection createOrders, none⟩],
        .ret (some (.plain "Database migration does not support op modify"))) :=
  (undo_failure_aborts refDriver (some shopDb) shopLedger
    ⟨.database recreateShop, some (.database alterShop)⟩
    [⟨.collection createOrders, none⟩] ⟨shopWorld, []⟩
    ⟨shopWorld, [.documentExists shopLedger "0001_shop", .apply (.database recreateShop),
      .createDatabase "shop" ⟨[]⟩]⟩
    ⟨shopWorld, [.documentExists shopLedger "0001_shop", .apply (.database recreateShop),
      .createDatabase "shop" ⟨[]⟩, .undo (.database alterShop)]⟩
    (.database recreateShop) (.database alterShop) (.database alterShop) conflict
    (.plain "Database migration does not support op modify")
    (by rfl) (by rfl) (by rfl) (by rfl) (by rfl)).1

/-! ## The bootstrap resolver and the entry point at the failing inputs -/

/-- When open-by-name succeeds, `loadDb` drops the first element whenever its
change is a Database migration, whatever the action, and keeps the list
otherwise. -/
theorem loadDb_opened_list {σ : Type} (drv : Driver σ) (conf : Config) (c : Client)
    (p0 : PairedMigrations) (rest : List PairedMigrations) (s : St σ) (h : DbHandle)
    (hopen : (drv.Database s.backend conf.Db).2 = .ok h) :
    (loadDb drv conf (some c) (p0 :: rest) s).2.1 =
      match p0.change with
      | .database _ => rest
      | .collection _ => p0 :: rest := by
  simp only [loadDb, callDatabase, hopen, errOf, valOf, IsNotFound, loadDbFinish]
  cases p0.change <;> simp <;> split <;> rfl

/-- When open-by-name fails as not-found and the first change is not a
Database migration, or is one with another name, `loadDb` returns a
configuration error after the one open-by-name call and leaves the list as it
was. -/
theorem loadDb_mismatch {σ : Type} (drv : Driver σ) (conf : Config) (c : Client)
    (p0 : PairedMigrations) (rest : List PairedMigrations) (s : St σ) (err : Error)
    (hopen : (drv.Database s.backend conf.Db).2 = .error err)
    (hnf : IsNotFound (some err) = true)
    (hmis : ∀ d, p0.change = .database d → d.Name ≠ conf.Db) :
    ∃ msg, loadDb drv conf (some c) (p0 :: rest) s =
      ((callDatabase drv s conf.Db).1, p0 :: rest, .ret (none, some (.plain msg))) := by
  simp only [loadDb, callDatabase, hopen, errOf, valOf, hnf]
  cases hp : p0.change with
  | collection cm =>
    exact ⟨"Database " ++ conf.Db ++
      " does not exist and first migration is not the DB creation", by simp⟩
  | database d =>
    exact ⟨"Configuration's dbname does not match migration name", by simp [hmis d hp]⟩

/-- Whenever `loadDb` returns an error, the handle it returns is nil. -/
theorem loadDb_error_nil_handle {σ : Type} (drv : Driver σ) (conf : Config)
    (cl : Option Client) (pm : List PairedMigrations) (s : St σ)
    (db : Option DbHandle) (err : Error)
    (h : (loadDb drv conf cl pm s).2.2 = .ret (db, some err)) : db = none := by
  have hfin : ∀ (db0 : Option DbHandle) (pm0 : List PairedMigrations) (s0 : St σ),
      (loadDbFinish drv db0 none pm0 s0).2.2 ≠ .ret (db, some err) := by
    intro db0 pm0 s0
    simp only [loadDbFinish, if_true]
    cases db0 with
    | none => simp
    | some hd =>
      simp only []
      split <;> simp
  unfold loadDb at h
  cases cl with
  | none => simp at h
  | some c =>
    simp only [callDatabase] at h
    cases hr : (drv.Database s.backend conf.Db).2 with
    | ok hd =>
      simp only [hr, errOf, valOf, ne_eq, not_true_eq_false, decide_False, Bool.false_and,
        Bool.false_eq_true, if_false, if_true, IsNotFound] at h
      cases pm with
      | nil => simp at h
      | cons p0 rest =>
        simp only at h
        cases hp : p0.change <;> rw [hp] at h <;> exact absurd h (hfin _ _ _)
    | error er =>
      simp only [hr, errOf, valOf] at h
      by_cases hnf : IsNotFound (some er) = true
      · simp only [hnf, ne_eq, reduceCtorEq, not_false_eq_true, decide_True, Bool.and_self,
          if_true] at h
        cases pm with
        | nil => simp at h
        | cons p0 rest =>
          simp only at h
          cases hp : p0.change with
          | collection cm =>
            rw [hp] at h
            simp only [Outcome.ret.injEq, Prod.mk.injEq] at h
            exact h.1.symm
          | database o =>
            rw [hp] at h
            simp only at h
            by_cases hn : o.Name = conf.Db
            · simp only [hn, ne_eq, not_true_eq_false, if_false] at h
              split at h
              · simp at h
              · rename_i err1 _
                cases err1 with
                | none =>
                  simp only [if_true] at h
                  split at h
                  · simp at h
                  · exact absurd h (hfin _ _ _)
                | some e1 =>
                  simp only [reduceCtorEq, if_false, loadDbFinish] at h
                  simp only [Outcome.ret.injEq, Prod.mk.injEq] at h
                  exact h.1.symm
            · simp only [hn, ne_eq, not_false_eq_true, if_true] at h
              simp only [Outcome.ret.injEq, Prod.mk.injEq] at h
              exact h.1.symm
      · simp only [hnf, Bool.and_false, Bool.false_eq_true, if_false, reduceCtorEq,
          loadDbFinish] at h
        simp only [Outcome.ret.injEq, Prod.mk.injEq] at h
        exact h.1.symm

/-- Whenever `loadDb` returns an error, `perform` does not return: it calls
`migrateNow` with the nil handle, which panics. -/
theorem perform_panics_on_loadDb_error {σ : Type} (drv : Driver σ)
    (migrations : String → List PairedMigrations × Option Error)
    (client : Config → Option Client × Option Error) (c : Config) (s : St σ)
    (db : Option DbHandle) (err : Error)
    (hcat : (migrations c.MigrationsPath).2 = none)
    (h : (loadDb drv c (client c).1 (migrations c.MigrationsPath).1 s).2.2
      = .ret (db, some err)) :
    (perform drv migrations client c s).2 = .panic nilDeref := by
  have hdb := loadDb_error_nil_handle drv c _ _ s db err h
  subst hdb
  unfold perform
  rcases hm : migrations c.MigrationsPath with ⟨pm, e0⟩
  rcases hc : client c with ⟨cl, e1⟩
  rw [hm] at hcat h
  rw [hc] at h
  simp only at hcat h
  subst hcat
  rcases hl : loadDb drv c cl pm s with ⟨s1, pm1, r⟩
  rw [hl] at h
  simp only at h
  subst h
  simp [e, migrateNow, hl]

/-- C6 (bootstrap mismatch in `loadDb`), the code at the failing input: the
target database "shop" is absent (open-by-name fails as not-found) and the
first change is a Database migration named "shop" with action delete. `loadDb`
does not return a configuration error: it invokes the migration, whose
`Remove` call on the nil database handle panics. -/
theorem loadDb_delete_first_panics :
    IsNotFound (errOf (refDriver.Database emptyWorld shopConfig.Db).2) = true ∧
    (loadDb refDriver shopConfig (some someClient) [⟨.database dropShop, none⟩]
      ⟨emptyWorld, []⟩).2.2 = .panic nilDeref := by
  constructor <;> rfl

/-- C7 (configuration errors at the entry point), the code at the failing
input: "shop" is absent and the first change is a Collection migration, so
`loadDb` returns the configuration error with a nil handle; `perform` does not
return that error, it goes on to call `migrateNow`, which panics on the nil
handle. -/
theorem perform_ignores_loadDb_error :
    (loadDb refDriver shopConfig (some someClient) [⟨.collection createOrders, none⟩]
      ⟨emptyWorld, []⟩).2.2 =
      .ret (none, some (.plain
        "Database shop does not exist and first migration is not the DB creation")) ∧
    (perform refDriver (fun _ => ([⟨.collection createOrders, none⟩], none))
      (fun _ => (some someClient, none)) shopConfig ⟨emptyWorld, []⟩).2 = .panic nilDeref := by
  constructor <;> rfl

/-- C9 (list shrinking in `loadDb`), the code at the failing input:
open-by-name of "shop" succeeds and the first change is a Database migration
with action delete (or modify); the list after `loadDb` is the input without
its first element, not the input unchanged. -/
theorem loadDb_drops_any_database_first :
    (refDriver.Database shopWorld shopConfig.Db).2 = .ok shopDb ∧
    (loadDb refDriver shopConfig (some someClient)
      [⟨.database dropShop, none⟩, ⟨.collection createOrders, none⟩] ⟨shopWorld, []⟩).2.1
      = [⟨.collection createOrders, none⟩] ∧
    (loadDb refDriver shopConfig (some someClient)
      [⟨.database alterShop, none⟩, ⟨.collection createOrders, none⟩] ⟨shopWorld, []⟩).2.1
      = [⟨.collection createOrders, none⟩] := by
  refine ⟨?_, ?_, ?_⟩ <;> rfl

/-! ## The Collection variant -/

/-- `Collection.migrate` returns `nil` and does nothing, whatever the action. -/
theorem collection_migrate_eq {σ : Type} (drv : Driver σ) (c : Collection)
    (db : Option DbHandle) (s : St σ) : c.migrate drv db s = (s, .ret none) := by
  unfold Collection.migrate
  split <;> rfl

/-- Dispatch on a Collection migration. -/
theorem migration_migrate_collection {σ : Type} (drv : Driver σ) (c : Collection)
    (db : Option DbHandle) (s : St σ) :
    (Migration.collection c).migrate drv db s = (s, .collection c, .ret none) := by
  simp [Migration.migrate, collection_migrate_eq]

/-! ## Bootstrap on the reference backend -/

/-- The bootstrap of an absent target on the reference backend, in full. -/
theorem loadDb_bootstrap (w : World) (conf : Config) (c : Client) (d : Database)
    (u0 : Option Migration) (rest : List PairedMigrations)
    (hfaults : w.faults = []) (habsent : conf.Db ∉ w.dbs)
    (hcreate : d.Action = .CREATE) (hname : d.Name = conf.Db) (hfresh : d.db = none) :
    loadDb refDriver conf (some c) (⟨.database d, u0⟩ :: rest) ⟨w, []⟩ =
      (⟨bootstrapped w conf.Db,
          [.openDatabase conf.Db, .apply (.database { d with cl := some c }),
            .createDatabase conf.Db d.createOptions,
            .collection ⟨conf.Db⟩ mig_col, .createCollection ⟨conf.Db⟩ mig_col]⟩,
        ⟨.database { d with cl := some c, db := some ⟨conf.Db⟩ }, u0⟩ :: rest,
        .ret (some ⟨conf.Db⟩, none)) := by
  obtain ⟨dbs, cols, docs, faults, nk⟩ := w
  simp only at hfaults habsent
  subst hfaults
  simp [loadDb, callDatabase, refDriver, World.Database, World.pop, habsent, errOf, valOf,
    IsNotFound, notFound, hname, Database.migrate, hcreate, hfresh, callCreateDatabase,
    World.CreateDatabase, St.log, loadDbFinish, callCollection, World.Collection,
    callCreateCollection, World.CreateCollection, bootstrapped, Database.createOptions]

/-- The loop body on a Collection change whose fileName the ledger lookup does
not find, on the reference backend without injected failure: looked up,
applied, and a row created, which the server stores without attributes under a
key it generates. -/
theorem migrateOne_collection_new (db : Option DbHandle) (mcol : ColHandle) (cm : Collection)
    (un : Option Migration) (w : World) (tr : List Event)
    (hfaults : w.faults = []) (hmcol : mcol ∈ w.cols)
    (hnew : w.hasDoc mcol cm.fileName = false) :
    migrateOne refDriver db mcol ⟨.collection cm, un⟩ ⟨w, tr⟩ =
      (⟨{ w with
            docs := w.docs ++ [(mcol, ⟨.generated w.nextKey, []⟩)]
            nextKey := w.nextKey + 1 },
        tr ++ [.documentExists mcol cm.fileName, .apply (.collection cm),
          .createDocument mcol (ledgerRow (.collection cm))]⟩, ⟨.collection cm, un⟩, none) := by
  obtain ⟨dbs, cols, docs, faults, nk⟩ := w
  simp only at hfaults hmcol
  subst hfaults
  have hde : callDocumentExists refDriver ⟨⟨dbs, cols, docs, [], nk⟩, tr⟩ mcol cm.fileName =
      (⟨⟨dbs, cols, docs, [], nk⟩, tr ++ [.documentExists mcol cm.fileName]⟩, .ok false) := by
    simp [callDocumentExists, refDriver, World.DocumentExists, World.pop, hnew]
  have hcd : callCreateDocument refDriver
      ⟨⟨dbs, cols, docs, [], nk⟩,
        tr ++ [.documentExists mcol cm.fileName, .apply (.collection cm)]⟩
      mcol (ledgerRow (.collection cm)) =
      (⟨⟨dbs, cols, docs ++ [(mcol, ⟨.generated nk, []⟩)], [], nk + 1⟩,
        tr ++ [.documentExists mcol cm.fileName, .apply (.collection cm),
          .createDocument mcol (ledgerRow (.collection cm))]⟩, none) := by
    simp [callCreateDocument, refDriver, World.CreateDocument, World.pop, hmcol,
      migration.posted]
  simp only [migrateOne, Migration.FileName, hde, migration_migrate_collection, St.log,
    List.append_assoc, List.singleton_append, e, Option.isSome_none, Bool.not_false, if_true,
    recorded]
  have := hcd
  simp only [ledgerRow, Migration.FileName, Migration.CheckSum] at this ⊢
  rw [this]

/-- Documents found after more documents were stored. -/
theorem world_hasDoc_append (w : World) (col : ColHandle) (key : String)
    (extra : List (ColHandle × Document)) (nk : Nat) :
    ({ w with docs := w.docs ++ extra, nextKey := nk } : World).hasDoc col key =
      (w.hasDoc col key ||
        decide ((col, DocKey.named key) ∈ extra.map fun r => (r.1, r.2.key))) := by
  simp only [World.hasDoc, List.map_append, List.mem_append, Bool.decide_or]

/-- The loop over Collection changes whose fileNames the ledger lookup does not
find, on the reference backend without injected failure: each is applied and a
row is created for it; the server stores the rows under generated keys, so no
later lookup finds them. -/
theorem migrateLoop_collections (db : Option DbHandle) (mcol : ColHandle)
    (rest : List PairedMigrations) :
    ∀ (w : World) (tr : List Event),
      (∀ pm ∈ rest, ∃ cm, pm.change = .collection cm) →
      w.faults = [] → mcol ∈ w.cols →
      (∀ pm ∈ rest, w.hasDoc mcol pm.change.FileName = false) →
      migrateLoop refDriver db mcol rest ⟨w, tr⟩ =
        (⟨{ w with
              docs := w.docs ++ (generatedRows w.nextKey rest.length).map fun r => (mcol, r)
              nextKey := w.nextKey + rest.length },
            tr ++ recordedRun mcol rest⟩, rest, .ret none) := by
  induction rest with
  | nil => intro w tr _ _ _ _; simp [migrateLoop, recordedRun, generatedRows]
  | cons pm rest ih =>
    intro w tr hcol hfaults hmcol hnew
    obtain ⟨cm, hcm⟩ := hcol pm (List.mem_cons_self _ _)
    obtain ⟨ch, un⟩ := pm
    simp only at hcm
    subst hcm
    have hpm := hnew _ (List.mem_cons_self _ _)
    simp only [migrateLoop, migrateOne_collection_new db mcol cm un w tr hfaults hmcol hpm]
    rw [ih { w with
          docs := w.docs ++ [(mcol, ⟨.generated w.nextKey, []⟩)]
          nextKey := w.nextKey + 1 } _
      (fun p hp => hcol p (List.mem_cons_of_mem _ hp)) hfaults hmcol]
    · simp [recordedRun, Migration.FileName, generatedRows, Nat.add_assoc, Nat.add_comm 1]
    · intro p hp
      rw [world_hasDoc_append, hnew p (List.mem_cons_of_mem _ hp)]
      simp

/-- The ledger after rows were stored in it. -/
theorem world_ledger_append (w : World) (db : String) (ms : List Document) (nk : Nat) :
    ({ w with
        docs := w.docs ++ ms.map fun m => ((⟨db, mig_col⟩ : ColHandle), m)
        nextKey := nk } : World).ledger db
      = w.ledger db ++ ms := by
  simp [World.ledger, List.filter_append, List.filter_map, Function.comp_def]

/-- The number of generated rows. -/
theorem generatedRows_length (k n : Nat) : (generatedRows k n).length = n := by
  induction n generalizing k with
  | zero => rfl
  | succ n ih => simp [generatedRows, ih]

/-- The row creations of a run that looks up, applies and records. -/
theorem ledgerWrites_recordedRun (mcol : ColHandle) (rest : List PairedMigrations) :
    ledgerWrites (recordedRun mcol rest) = rest.map fun pm => ledgerRow pm.change := by
  induction rest with
  | nil => rfl
  | cons pm rest ih => simp [recordedRun, ledgerWrites, ih]

/-- The create-database calls of consecutive events. -/
theorem createDatabaseCalls_append (xs ys : List Event) :
    createDatabaseCalls (xs ++ ys) = createDatabaseCalls xs + createDatabaseCalls ys := by
  induction xs with
  | nil => simp [createDatabaseCalls]
  | cons ev xs ih => cases ev <;> simp [createDatabaseCalls, ih]; omega

/-- A run that only looks up, applies and records issues no create-database
call. -/
theorem createDatabaseCalls_recordedRun (mcol : ColHandle) (rest : List PairedMigrations) :
    createDatabaseCalls (recordedRun mcol rest) = 0 := by
  induction rest with
  | nil => rfl
  | cons pm rest ih => simp [recordedRun, createDatabaseCalls, ih]

/-- The ledger of a freshly bootstrapped database is empty. -/
theorem bootstrapped_ledger (w : World) (name : String) :
    (bootstrapped w name).ledger name = [] := by
  simp only [World.ledger, bootstrapped, List.filter_filter, List.map_eq_nil_iff,
    List.filter_eq_nil_iff]
  rintro ⟨a, b⟩ _
  simp only [decide_not, Bool.and_eq_true, decide_eq_true_eq, Bool.not_eq_true',
    decide_eq_false_iff_not, not_and, not_not]
  intro h1 h2
  exact absurd h1 h2

/-- The ledger of a freshly bootstrapped database has no row for any key. -/
theorem bootstrapped_hasDoc (w : World) (name key : String) :
    (bootstrapped w name).hasDoc ⟨name, mig_col⟩ key = false := by
  simp only [World.hasDoc, bootstrapped, decide_eq_false_iff_not, List.mem_map, not_exists,
    not_and, List.mem_filter]
  rintro ⟨a, b⟩ ⟨_, h⟩ heq
  simp only [Prod.mk.injEq] at heq
  simp [heq.1] at h

/-- C8 (bootstrap success, end to end), on the reference backend with no
injected failure. The target database is absent, catalog[0] is a Database
migration with action create, named like the target and holding no handle yet,
and the rest are non-database migrations. Then
(i) the bootstrap resolver returns the new handle, issues exactly one
create-database call and leaves the list as it was but for the client and the
handle stored on catalog[0]; (ii) the run completes, invokes `migrate` on
catalog[0] again and issues no further create-database call; (iii) the run
issues exactly one row creation for each of the remaining migrations, in
catalog order, and none for catalog[0], and the ledger of the target ends with
exactly that many rows: one stored document per creation, each as it was
posted (without attributes, under a key the server generated). -/
theorem bootstrap_end_to_end (w : World) (conf : Config) (c : Client) (d : Database)
    (u0 : Option Migration) (rest : List PairedMigrations)
    (s1 s2 : St World) (pms1 pms2 : List PairedMigrations)
    (r1 : Outcome (Option DbHandle × Option Error)) (r2 : Outcome (Option Error))
    (hfaults : w.faults = []) (habsent : conf.Db ∉ w.dbs)
    (hcreate : d.Action = .CREATE) (hname : d.Name = conf.Db) (hfresh : d.db = none)
    (hrest : ∀ pm ∈ rest, ∃ cm, pm.change = .collection cm)
    (hload : loadDb refDriver conf (some c) (⟨.database d, u0⟩ :: rest) ⟨w, []⟩ = (s1, pms1, r1))
    (hrun : migrateNow refDriver (some ⟨conf.Db⟩) pms1 s1 = (s2, pms2, r2)) :
    (r1 = .ret (some ⟨conf.Db⟩, none) ∧
      createDatabaseCalls s1.trace = 1 ∧
      pms1 = ⟨.database { d with cl := some c, db := some ⟨conf.Db⟩ }, u0⟩ :: rest) ∧
    (r2 = .ret none ∧
      createDatabaseCalls (eventsSince s1 s2) = 0 ∧
      .apply (.database { d with cl := some c, db := some ⟨conf.Db⟩ }) ∈ eventsSince s1 s2) ∧
    (ledgerWrites (eventsSince s1 s2) = (rest.map fun pm => ledgerRow pm.change) ∧
      s2.backend.ledger conf.Db = generatedRows w.nextKey rest.length ∧
      (s2.backend.ledger conf.Db).length = rest.length) := by
  rw [loadDb_bootstrap w conf c d u0 rest hfaults habsent hcreate hname hfresh] at hload
  simp only [Prod.mk.injEq] at hload
  obtain ⟨hs1, hpms1, hr1⟩ := hload
  subst hs1 hpms1 hr1
  have hcolIn : (⟨conf.Db, mig_col⟩ : ColHandle) ∈ (bootstrapped w conf.Db).cols := by
    simp [bootstrapped]
  have hone : ∀ tr, migrateOne refDriver (some ⟨conf.Db⟩) ⟨conf.Db, mig_col⟩
      ⟨.database { d with cl := some c, db := some ⟨conf.Db⟩ }, u0⟩
      ⟨bootstrapped w conf.Db, tr⟩ =
      (⟨bootstrapped w conf.Db, tr ++ [.documentExists ⟨conf.Db, mig_col⟩ d.fileName,
        .apply (.database { d with cl := some c, db := some ⟨conf.Db⟩ })]⟩,
        ⟨.database { d with cl := some c, db := some ⟨conf.Db⟩ }, u0⟩, none) := by
    intro tr
    have hde : callDocumentExists refDriver ⟨bootstrapped w conf.Db, tr⟩ ⟨conf.Db, mig_col⟩
        d.fileName = (⟨bootstrapped w conf.Db, tr ++ [.documentExists ⟨conf.Db, mig_col⟩
          d.fileName]⟩, .ok false) := by
      have hf : (bootstrapped w conf.Db).faults = [] := rfl
      simp [callDocumentExists, refDriver, World.DocumentExists, World.pop,
        bootstrapped_hasDoc, hf]
    simp [migrateOne, Migration.FileName, hde, Migration.migrate, Database.migrate, hcreate,
      St.log, e, recorded]
  have hrun2 : migrateNow refDriver (some ⟨conf.Db⟩)
      (⟨.database { d with cl := some c, db := some ⟨conf.Db⟩ }, u0⟩ :: rest)
      ⟨bootstrapped w conf.Db,
        [.openDatabase conf.Db, .apply (.database { d with cl := some c }),
          .createDatabase conf.Db d.createOptions,
          .collection ⟨conf.Db⟩ mig_col, .createCollection ⟨conf.Db⟩ mig_col]⟩ =
      (⟨{ bootstrapped w conf.Db with
            docs := (bootstrapped w conf.Db).docs ++
              (generatedRows w.nextKey rest.length).map fun r =>
                ((⟨conf.Db, mig_col⟩ : ColHandle), r)
            nextKey := w.nextKey + rest.length },
          [.openDatabase conf.Db, .apply (.database { d with cl := some c }),
            .createDatabase conf.Db d.createOptions,
            .collection ⟨conf.Db⟩ mig_col, .createCollection ⟨conf.Db⟩ mig_col] ++
          (.collection ⟨conf.Db⟩ mig_col ::
            .documentExists ⟨conf.Db, mig_col⟩ d.fileName ::
            .apply (.database { d with cl := some c, db := some ⟨conf.Db⟩ }) ::
            recordedRun ⟨conf.Db, mig_col⟩ rest)⟩,
        ⟨.database { d with cl := some c, db := some ⟨conf.Db⟩ }, u0⟩ :: rest, .ret none) := by
    have hc : ∀ tr, callCollection refDriver ⟨bootstrapped w conf.Db, tr⟩ ⟨conf.Db⟩ mig_col =
        (⟨bootstrapped w conf.Db, tr ++ [.collection ⟨conf.Db⟩ mig_col]⟩,
          .ok ⟨conf.Db, mig_col⟩) := by
      intro tr
      have hf : (bootstrapped w conf.Db).faults = [] := rfl
      have hd : conf.Db ∈ (bootstrapped w conf.Db).dbs := by simp [bootstrapped]
      simp [callCollection, refDriver, World.Collection, World.pop, hf, hd, hcolIn]
    simp only [migrateNow, hc, migrateLoop, hone]
    rw [migrateLoop_collections (some ⟨conf.Db⟩) ⟨conf.Db, mig_col⟩ rest _ _ hrest rfl
      hcolIn (fun pm _ => bootstrapped_hasDoc w conf.Db _)]
    simp [bootstrapped]
  rw [hrun2] at hrun
  simp only [Prod.mk.injEq] at hrun
  obtain ⟨hs2, -, hr2⟩ := hrun
  subst hs2 hr2
  have hledger := world_ledger_append (bootstrapped w conf.Db) conf.Db
    (generatedRows w.nextKey rest.length) (w.nextKey + rest.length)
  rw [bootstrapped_ledger, List.nil_append] at hledger
  refine ⟨⟨rfl, by simp [createDatabaseCalls], rfl⟩, ⟨rfl, ?_, ?_⟩, ?_, ?_, ?_⟩
  · rw [eventsSince_append _ _ _ rfl]
    simp [createDatabaseCalls, createDatabaseCalls_recordedRun]
  · rw [eventsSince_append _ _ _ rfl]
    simp
  · rw [eventsSince_append _ _ _ rfl]
    simp [ledgerWrites, ledgerWrites_recordedRun]
  · exact hledger
  · simp only []
    rw [hledger, generatedRows_length]

/-- Witness of C8: catalog [CreateDB("shop"), CreateCollection("orders")] with
"shop" absent: the run issues one row creation, for "orders", and the ledger
ends with exactly one row, the document stored for that creation. -/
theorem bootstrap_end_to_end_witness :
    ledgerWrites (eventsSince
      (loadDb refDriver shopConfig (some someClient)
        [⟨.database createShop, none⟩, ⟨.collection createOrders, none⟩] ⟨emptyWorld, []⟩).1
      (migrateNow refDriver (some shopDb)
        (loadDb refDriver shopConfig (some someClient)
          [⟨.database createShop, none⟩, ⟨.collection createOrders, none⟩] ⟨emptyWorld, []⟩).2.1
        (loadDb refDriver shopConfig (some someClient)
          [⟨.database createShop, none⟩, ⟨.collection createOrders, none⟩]
          ⟨emptyWorld, []⟩).1).1)
      = [{ _key := "orders", checksum := "bb" }] ∧
    (migrateNow refDriver (some shopDb)
      (loadDb refDriver shopConfig (some someClient)
        [⟨.database createShop, none⟩, ⟨.collection createOrders, none⟩] ⟨emptyWorld, []⟩).2.1
      (loadDb refDriver shopConfig (some someClient)
        [⟨.database createShop, none⟩, ⟨.collection createOrders, none⟩]
        ⟨emptyWorld, []⟩).1).1.backend.ledger "shop"
      = [{ key := .generated 0, attrs := [] }] ∧
    ((migrateNow refDriver (some shopDb)
      (loadDb refDriver shopConfig (some someClient)
        [⟨.database createShop, none⟩, ⟨.collection createOrders, none⟩] ⟨emptyWorld, []⟩).2.1
      (loadDb refDriver shopConfig (some someClient)
        [⟨.database createShop, none⟩, ⟨.collection createOrders, none⟩]
        ⟨emptyWorld, []⟩).1).1.backend.ledger "shop").length = 1 :=
  (bootstrap_end_to_end emptyWorld shopConfig someClient createShop none
    [⟨.collection createOrders, none⟩] _ _ _ _ _ _ rfl (by decide) rfl rfl rfl
    (by intro pm hpm; exact ⟨createOrders, by simp at hpm; rw [hpm]⟩) rfl rfl).2.2

/-! ## Running the engine twice -/

/-- C10, counterexample. Database "shop" exists with an empty ledger; the
catalog is the single change DeleteDB("shop") with a Collection undo; the
backend refuses the first delete-database call with a backend-reported error.
The first run rolls the change back and completes, leaving the catalog and the
backend data as they were. The second run over the same catalog finds no
ledger row, applies the change again and deletes "shop" with its ledger: the
schema state and the ledger are not what the first run left. -/
theorem second_run_changes_schema :
    (migrateNow refDriver (some shopDb) dropCatalog ⟨flakyShopWorld, []⟩).2.2 = .ret none ∧
    (migrateNow refDriver (some shopDb) dropCatalog ⟨flakyShopWorld, []⟩).2.1 = dropCatalog ∧
    (migrateNow refDriver (some shopDb) dropCatalog ⟨flakyShopWorld, []⟩).1.backend.data
      = (["shop"], [shopLedger], []) ∧
    (migrateNow refDriver (some shopDb) dropCatalog
      (migrateNow refDriver (some shopDb) dropCatalog ⟨flakyShopWorld, []⟩).1).2.2
      = .ret none ∧
    (migrateNow refDriver (some shopDb) dropCatalog
      (migrateNow refDriver (some shopDb) dropCatalog ⟨flakyShopWorld, []⟩).1).1.backend.data
      = ([], [], []) ∧
    (migrateNow refDriver (some shopDb) dropCatalog
      (migrateNow refDriver (some shopDb) dropCatalog ⟨flakyShopWorld, []⟩).1).1.backend.data
      ≠ (migrateNow refDriver (some shopDb) dropCatalog ⟨flakyShopWorld, []⟩).1.backend.data := by
  refine ⟨?_, ?_, ?_, ?_, ?_, ?_⟩
  · rfl
  · rfl
  · rfl
  · rfl
  · rfl
  · decide

/-- The `migrate` invocations of consecutive events. -/
theorem migrateCalls_append (xs ys : List Event) :
    migrateCalls (xs ++ ys) = migrateCalls xs + migrateCalls ys := by
  induction xs with
  | nil => simp [migrateCalls]
  | cons ev xs ih => cases ev <;> simp [migrateCalls, ih] <;> omega

/-- The loop over migrations that all have a ledger row, on the reference
backend with any fault plan: the data is untouched, the catalog is untouched,
and the only events are lookups. -/
theorem migrateLoop_all_recorded (db : Option DbHandle) (name : String)
    (pms : List PairedMigrations) :
    ∀ (w : World) (tr : List Event),
      (∀ pm ∈ pms, w.recordedIn name pm.change.FileName = true) →
      (migrateLoop refDriver db ⟨name, mig_col⟩ pms ⟨w, tr⟩).1.backend.data = w.data ∧
      (migrateLoop refDriver db ⟨name, mig_col⟩ pms ⟨w, tr⟩).2.1 = pms ∧
      ∃ evs, (migrateLoop refDriver db ⟨name, mig_col⟩ pms ⟨w, tr⟩).1.trace = tr ++ evs ∧
        migrateCalls evs = 0 ∧ ledgerWrites evs = [] := by
  induction pms with
  | nil => intro w tr _; exact ⟨rfl, rfl, [], by simp [migrateLoop], rfl, rfl⟩
  | cons pm rest ih =>
    intro w tr hrows
    have hpm := hrows pm (List.mem_cons_self _ _)
    obtain ⟨dbs, cols, docs, faults, nk⟩ := w
    cases faults with
    | nil =>
      have hone : migrateOne refDriver db ⟨name, mig_col⟩ pm ⟨⟨dbs, cols, docs, [], nk⟩, tr⟩ =
          (⟨⟨dbs, cols, docs, [], nk⟩, tr ++ [.documentExists ⟨name, mig_col⟩ pm.change.FileName]⟩,
            pm, none) := by
        simp only [World.recordedIn, World.hasDoc] at hpm
        simp [migrateOne, callDocumentExists, refDriver, World.DocumentExists, World.pop,
          World.hasDoc, hpm]
      obtain ⟨h1, h2, evs, h3, h4, h5⟩ := ih ⟨dbs, cols, docs, [], nk⟩
        (tr ++ [.documentExists ⟨name, mig_col⟩ pm.change.FileName])
        (fun p hp => hrows p (List.mem_cons_of_mem _ hp))
      simp only [migrateLoop, hone]
      refine ⟨h1, by rw [h2], .documentExists ⟨name, mig_col⟩ pm.change.FileName :: evs,
        by rw [h3]; simp, by simp [migrateCalls, h4], by simp [ledgerWrites, h5]⟩
    | cons f fs =>
      cases f with
      | some err =>
        have hone : migrateOne refDriver db ⟨name, mig_col⟩ pm ⟨⟨dbs, cols, docs, some err :: fs, nk⟩, tr⟩ =
            (⟨⟨dbs, cols, docs, fs, nk⟩, tr ++ [.documentExists ⟨name, mig_col⟩ pm.change.FileName]⟩,
              pm, some (.ret (some err))) := by
          simp [migrateOne, callDocumentExists, refDriver, World.DocumentExists, World.pop]
        have hl : migrateLoop refDriver db ⟨name, mig_col⟩ (pm :: rest)
            ⟨⟨dbs, cols, docs, some err :: fs, nk⟩, tr⟩ =
            (⟨⟨dbs, cols, docs, fs, nk⟩, tr ++ [.documentExists ⟨name, mig_col⟩ pm.change.FileName]⟩,
              pm :: rest, .ret (some err)) := by
          simp only [migrateLoop, hone]
        rw [hl]
        exact ⟨rfl, rfl, [.documentExists ⟨name, mig_col⟩ pm.change.FileName], rfl, rfl, rfl⟩
      | none =>
        have hone : migrateOne refDriver db ⟨name, mig_col⟩ pm ⟨⟨dbs, cols, docs, none :: fs, nk⟩, tr⟩ =
            (⟨⟨dbs, cols, docs, fs, nk⟩, tr ++ [.documentExists ⟨name, mig_col⟩ pm.change.FileName]⟩,
              pm, none) := by
          simp only [World.recordedIn, World.hasDoc] at hpm
          simp [migrateOne, callDocumentExists, refDriver, World.DocumentExists, World.pop,
            World.hasDoc, hpm]
        obtain ⟨h1, h2, evs, h3, h4, h5⟩ := ih ⟨dbs, cols, docs, fs, nk⟩
          (tr ++ [.documentExists ⟨name, mig_col⟩ pm.change.FileName])
          (fun p hp => hrows p (List.mem_cons_of_mem _ hp))
        simp only [migrateLoop, hone]
        refine ⟨h1, by rw [h2], .documentExists ⟨name, mig_col⟩ pm.change.FileName :: evs,
          by rw [h3]; simp, by simp [migrateCalls, h4], by simp [ledgerWrites, h5]⟩


/-- C10 as amended (second run), on the reference backend, whatever failures
the backend injects. When a first run of `migrateNow` completes and, on the
state it leaves, the ledger lookup finds a row for every migration of the
catalog, a second run over the same catalog leaves the databases, collections
and documents (the ledger among them) as they were, invokes no apply and no
undo, and issues no row creation. -/
theorem second_run_is_noop (w : World) (tr : List Event) (db : DbHandle)
    (pms pms1 : List PairedMigrations) (s1 : St World)
    (hfirst : migrateNow refDriver (some db) pms ⟨w, tr⟩ = (s1, pms1, .ret none))
    (hrows : ∀ pm ∈ pms, s1.backend.recordedIn db.Name pm.change.FileName = true) :
    (migrateNow refDriver (some db) pms s1).1.backend.data = s1.backend.data ∧
    migrateCalls (eventsSince s1 (migrateNow refDriver (some db) pms s1).1) = 0 ∧
    ledgerWrites (eventsSince s1 (migrateNow refDriver (some db) pms s1).1) = [] := by
  obtain ⟨⟨dbs, cols, docs, faults, nk⟩, tr1⟩ := s1
  simp only at hrows
  simp only [migrateNow]
  cases faults with
  | nil =>
    by_cases hex : db.Name ∈ dbs ∧ (⟨db.Name, mig_col⟩ : ColHandle) ∈ cols
    · have hc : callCollection refDriver ⟨⟨dbs, cols, docs, [], nk⟩, tr1⟩ db mig_col =
          (⟨⟨dbs, cols, docs, [], nk⟩, tr1 ++ [.collection db mig_col]⟩, .ok ⟨db.Name, mig_col⟩) := by
        simp [callCollection, refDriver, World.Collection, World.pop, hex]
      simp only [hc]
      obtain ⟨h1, -, evs, h3, h4, h5⟩ := migrateLoop_all_recorded (some db) db.Name pms
        ⟨dbs, cols, docs, [], nk⟩ (tr1 ++ [.collection db mig_col]) hrows
      refine ⟨h1, ?_, ?_⟩ <;>
        rw [eventsSince_append _ _ (.collection db mig_col :: evs) (by rw [h3]; simp)] <;>
        simp [migrateCalls, ledgerWrites, h4, h5]
    · have hc : callCollection refDriver ⟨⟨dbs, cols, docs, [], nk⟩, tr1⟩ db mig_col =
          (⟨⟨dbs, cols, docs, [], nk⟩, tr1 ++ [.collection db mig_col]⟩, .error notFound) := by
        simp [callCollection, refDriver, World.Collection, World.pop, hex]
      simp only [hc]
      refine ⟨by trivial, ?_, ?_⟩ <;>
        (rw [eventsSince_append _ _ [.collection db mig_col] rfl]; rfl)
  | cons f fs =>
    cases f with
    | some err =>
      have hc : callCollection refDriver ⟨⟨dbs, cols, docs, some err :: fs, nk⟩, tr1⟩ db mig_col =
          (⟨⟨dbs, cols, docs, fs, nk⟩, tr1 ++ [.collection db mig_col]⟩, .error err) := by
        simp [callCollection, refDriver, World.Collection, World.pop]
      simp only [hc]
      refine ⟨by trivial, ?_, ?_⟩ <;>
        (rw [eventsSince_append _ _ [.collection db mig_col] rfl]; rfl)
    | none =>
      by_cases hex : db.Name ∈ dbs ∧ (⟨db.Name, mig_col⟩ : ColHandle) ∈ cols
      · have hc : callCollection refDriver ⟨⟨dbs, cols, docs, none :: fs, nk⟩, tr1⟩ db mig_col =
            (⟨⟨dbs, cols, docs, fs, nk⟩, tr1 ++ [.collection db mig_col]⟩,
              .ok ⟨db.Name, mig_col⟩) := by
          simp [callCollection, refDriver, World.Collection, World.pop, hex]
        simp only [hc]
        obtain ⟨h1, -, evs, h3, h4, h5⟩ := migrateLoop_all_recorded (some db) db.Name pms
          ⟨dbs, cols, docs, fs, nk⟩ (tr1 ++ [.collection db mig_col]) hrows
        refine ⟨h1, ?_, ?_⟩ <;>
          rw [eventsSince_append _ _ (.collection db mig_col :: evs) (by rw [h3]; simp)] <;>
          simp [migrateCalls, ledgerWrites, h4, h5]
      · have hc : callCollection refDriver ⟨⟨dbs, cols, docs, none :: fs, nk⟩, tr1⟩ db mig_col =
            (⟨⟨dbs, cols, docs, fs, nk⟩, tr1 ++ [.collection db mig_col]⟩, .error notFound) := by
          simp [callCollection, refDriver, World.Collection, World.pop, hex]
        simp only [hc]
        refine ⟨by trivial, ?_, ?_⟩ <;>
        (rw [eventsSince_append _ _ [.collection db mig_col] rfl]; rfl)

/-- Witness of C10: the ledger of "shop" holds a row stored under the file name
"orders"; the first run over [CreateCollection("orders")] completes and leaves
that row in place, and the second run changes nothing. -/
theorem second_run_is_noop_witness :
    (migrateNow refDriver (some shopDb) [⟨.collection createOrders, none⟩]
      ⟨shopWorldWithOrders, []⟩).2.2 = .ret none ∧
    (migrateNow refDriver (some shopDb) [⟨.collection createOrders, none⟩]
      ⟨shopWorldWithOrders, []⟩).1.backend.recordedIn "shop" "orders" = true ∧
    (migrateNow refDriver (some shopDb) [⟨.collection createOrders, none⟩]
      (migrateNow refDriver (some shopDb) [⟨.collection createOrders, none⟩]
        ⟨shopWorldWithOrders, []⟩).1).1.backend.data =
      (migrateNow refDriver (some shopDb) [⟨.collection createOrders, none⟩]
        ⟨shopWorldWithOrders, []⟩).1.backend.data ∧
    migrateCalls (eventsSince
      (migrateNow refDriver (some shopDb) [⟨.collection createOrders, none⟩]
        ⟨shopWorldWithOrders, []⟩).1
      (migrateNow refDriver (some shopDb) [⟨.collection createOrders, none⟩]
        (migrateNow refDriver (some shopDb) [⟨.collection createOrders, none⟩]
          ⟨shopWorldWithOrders, []⟩).1).1) = 0 :=
  ⟨rfl, by decide,
    (second_run_is_noop shopWorldWithOrders [] shopDb [⟨.collection createOrders, none⟩] _ _
      rfl (by decide)).1,
    (second_run_is_noop shopWorldWithOrders [] shopDb [⟨.collection createOrders, none⟩] _ _
      rfl (by decide)).2.1⟩

/-! ## Ordering of the run -/

/-- Dropping the database-level calls in front of what follows them. -/
theorem dropWhile_variant_append (evs rest : List Event)
    (h : evs.all Event.isVariantCall = true)
    (hrest : rest.head?.all (fun ev => !ev.isVariantCall) = true) :
    (evs ++ rest).dropWhile Event.isVariantCall = rest := by
  induction evs with
  | nil =>
    cases rest with
    | nil => rfl
    | cons ev rest =>
      simp only [List.head?_cons, Option.all_some, Bool.not_eq_true'] at hrest
      simp [List.dropWhile, hrest]
  | cons ev evs ih =>
    simp only [List.all_cons, Bool.and_eq_true] at h
    simp [List.dropWhile, h.1, ih h.2]

/-- The loop body only appends to the trace, and what it appends is a segment
of its catalog entry. -/
theorem migrateOne_segment {σ : Type} (drv : Driver σ) (db : Option DbHandle)
    (mcol : ColHandle) (pm : PairedMigrations) (s : St σ) :
    ∃ seg, (migrateOne drv db mcol pm s).1.trace = s.trace ++ seg ∧
      isSegment mcol pm seg = true := by
  obtain ⟨evs, htr, hvar, -⟩ := migration_migrate_trace drv pm.change db
    ((callDocumentExists drv s mcol pm.change.FileName).1.log (.apply pm.change))
  obtain ⟨hfn, hcs, -⟩ := migration_migrate_frame drv pm.change db
    ((callDocumentExists drv s mcol pm.change.FileName).1.log (.apply pm.change))
  unfold migrateOne
  simp only []
  rcases hce : callDocumentExists drv s mcol pm.change.FileName with ⟨s1, r⟩
  have hs1 : s1.trace = s.trace ++ [.documentExists mcol pm.change.FileName] := by
    have := callDocumentExists_trace drv s mcol pm.change.FileName
    rw [hce] at this; exact this
  rw [hce] at htr hfn hcs
  simp only at htr hfn hcs
  rcases r with err | found
  · exact ⟨[.documentExists mcol pm.change.FileName], hs1, by simp [isSegment, isApplied]⟩
  · cases found with
    | true =>
      exact ⟨[.documentExists mcol pm.change.FileName], hs1, by simp [isSegment, isApplied]⟩
    | false =>
      simp only []
      rcases hm : Migration.migrate drv pm.change db (s1.log (.apply pm.change))
        with ⟨s2, m1, res⟩
      rw [hm] at htr hfn hcs
      simp only at htr hfn hcs
      have hs2 : s2.trace = s.trace ++
          (.documentExists mcol pm.change.FileName :: .apply pm.change :: evs) := by
        rw [htr]; simp [St.log, hs1]
      cases res with
      | panic msg =>
        refine ⟨_, hs2, ?_⟩
        have hd := dropWhile_variant_append evs [] hvar rfl
        rw [List.append_nil] at hd
        simp [isSegment, isApplied, hd, isOutcome]
      | ret err =>
        cases err with
        | none =>
          simp only [e, Option.isSome_none, Bool.not_false, if_true]
          by_cases hrec : recorded m1 = true
          · simp only [hrec, if_true, hfn, hcs]
            rcases hcd : callCreateDocument drv s2 mcol
              { _key := pm.change.FileName, checksum := pm.change.CheckSum } with ⟨s3, werr⟩
            have hs3 : s3.trace = s.trace ++
                (.documentExists mcol pm.change.FileName :: .apply pm.change ::
                  (evs ++ [.createDocument mcol (ledgerRow pm.change)])) := by
              have : (callCreateDocument drv s2 mcol
                { _key := pm.change.FileName, checksum := pm.change.CheckSum }).1.trace =
                  s2.trace ++ [.createDocument mcol (ledgerRow pm.change)] := rfl
              rw [hcd] at this
              rw [this, hs2]; simp
            have hd := dropWhile_variant_append evs
              [.createDocument mcol (ledgerRow pm.change)] hvar rfl
            cases werr <;>
              exact ⟨_, hs3, by simp [isSegment, isApplied, hd, isOutcome]⟩
          · rw [Bool.not_eq_true] at hrec
            simp only [hrec, Bool.false_eq_true, if_false]
            have hd := dropWhile_variant_append evs [] hvar rfl
            rw [List.append_nil] at hd
            exact ⟨_, hs2, by simp [isSegment, isApplied, hd, isOutcome]⟩
        | some er =>
          simp only [e, Option.isSome_some, Bool.not_true, Bool.false_eq_true, if_false,
            Bool.true_and]
          have hd := dropWhile_variant_append evs [] hvar rfl
          rw [List.append_nil] at hd
          cases hu : pm.undo with
          | none =>
            refine ⟨.documentExists mcol pm.change.FileName :: .apply pm.change :: evs, ?_,
              by simp [isSegment, isApplied, hd, isOutcome]⟩
            cases IsArangoError (some er) <;> exact hs2
          | some um =>
            cases hA : IsArangoError (some er) with
            | false =>
              exact ⟨_, hs2, by simp [isSegment, isApplied, hd, isOutcome]⟩
            | true =>
              simp only []
              obtain ⟨evs1, htr1, hvar1, -⟩ :=
                migration_migrate_trace drv um db (s2.log (.undo um))
              rcases hum : Migration.migrate drv um db (s2.log (.undo um)) with ⟨s3, u1, ures⟩
              rw [hum] at htr1
              simp only at htr1
              have hs3 : s3.trace = s.trace ++
                  (.documentExists mcol pm.change.FileName :: .apply pm.change ::
                    (evs ++ .undo um :: evs1)) := by
                rw [htr1]; simp [St.log, hs2]
              have hd1 := dropWhile_variant_append evs (.undo um :: evs1) hvar rfl
              have hseg : isSegment mcol pm
                  (.documentExists mcol pm.change.FileName :: .apply pm.change ::
                    (evs ++ .undo um :: evs1)) = true := by
                simp [isSegment, isApplied, hd1, isOutcome, hu, hvar1]
              cases ures with
              | panic msg => exact ⟨_, hs3, hseg⟩
              | ret uerr =>
                simp only []
                split <;> exact ⟨_, hs3, hseg⟩


/-- Database-level calls are no apply. -/
theorem filter_isApply_variant (evs : List Event) (h : evs.all Event.isVariantCall = true) :
    evs.filter Event.isApply = [] := by
  induction evs with
  | nil => rfl
  | cons ev evs ih =>
    simp only [List.all_cons, Bool.and_eq_true] at h
    cases ev <;> simp_all [Event.isVariantCall, Event.isApply]

/-- The outcome part of a segment holds no apply. -/
theorem isOutcome_no_apply (mcol : ColHandle) (pm : PairedMigrations) (evs : List Event)
    (h : isOutcome mcol pm evs = true) : evs.filter Event.isApply = [] := by
  unfold isOutcome at h
  split at h
  · rfl
  · simp [Event.isApply]
  · simp only [Bool.and_eq_true] at h
    simp [Event.isApply, filter_isApply_variant _ h.2]
  · simp at h

/-- A segment holds at most one apply. -/
theorem isSegment_apply_once (mcol : ColHandle) (pm : PairedMigrations) (seg : List Event)
    (h : isSegment mcol pm seg = true) : (seg.filter Event.isApply).length ≤ 1 := by
  unfold isSegment at h
  split at h
  · rename_i col key rest
    simp only [Bool.and_eq_true] at h
    have h2 := h.2
    unfold isApplied at h2
    split at h2
    · simp [Event.isApply]
    · rename_i m after
      simp only [Bool.and_eq_true] at h2
      have hout := isOutcome_no_apply mcol pm _ h2.2
      have hsplit := List.takeWhile_append_dropWhile Event.isVariantCall after
      have htake : (after.takeWhile Event.isVariantCall).filter Event.isApply = [] :=
        filter_isApply_variant _ (by
          rw [List.all_eq_true]
          intro x hx
          exact List.mem_takeWhile_imp hx)
      have : after.filter Event.isApply = [] := by
        rw [← hsplit, List.filter_append, htake, hout]; rfl
      simp [Event.isApply, this]
    · simp at h2
  · simp at h

/-- The trace of the loop is the trace it started from followed by one
segment per catalog entry it reached, in catalog order. -/
theorem migrateLoop_segments {σ : Type} (drv : Driver σ) (db : Option DbHandle)
    (mcol : ColHandle) (pms : List PairedMigrations) :
    ∀ s : St σ, ∃ segs : List (List Event),
      (migrateLoop drv db mcol pms s).1.trace = s.trace ++ segs.flatten ∧
      List.Forall₂ (fun pm seg => isSegment mcol pm seg = true) (pms.take segs.length) segs ∧
      ((migrateLoop drv db mcol pms s).2.2 = .ret none → segs.length = pms.length) := by
  induction pms with
  | nil =>
    intro s
    exact ⟨[], by simp [migrateLoop], by simp, by simp⟩
  | cons pm rest ih =>
    intro s
    obtain ⟨seg, htr, hseg⟩ := migrateOne_segment drv db mcol pm s
    have hne := migrateOne_return_ne_nil drv db mcol pm s
    rcases hone : migrateOne drv db mcol pm s with ⟨s1, pm1, _ | r⟩
    · rw [hone] at htr
      simp only at htr
      obtain ⟨segs, h1, h2, h3⟩ := ih s1
      refine ⟨seg :: segs, ?_, ?_, ?_⟩
      · simp only [migrateLoop, hone, h1, htr, List.flatten_cons, List.append_assoc]
      · simp only [List.length_cons, List.take_succ_cons]
        exact List.Forall₂.cons hseg h2
      · intro h
        simp only [migrateLoop, hone] at h
        simp [h3 h]
    · rw [hone] at htr hne
      simp only at htr
      refine ⟨[seg], ?_, ?_, ?_⟩
      · simp only [migrateLoop, hone]
        simpa using htr
      · simp [hseg]
      · intro h
        simp only [migrateLoop, hone] at h
        rw [h] at hne
        exact absurd rfl hne

/-- C11 (ordering in `migrateNow`). The events of the loop over a catalog are
the concatenation of segments, one per catalog entry the run reached, in
catalog order: the segment of an entry starts with its ledger lookup and holds
its apply, its undo and its ledger write, so everything of entry i comes before
the lookup and the apply of entry j for i < j. No segment holds more than one
apply, and a run that completes has a segment for every entry. -/
theorem ordering {σ : Type} (drv : Driver σ) (db : Option DbHandle) (mcol : ColHandle)
    (pms : List PairedMigrations) (s : St σ) :
    ∃ segs : List (List Event),
      eventsSince s (migrateLoop drv db mcol pms s).1 = segs.flatten ∧
      List.Forall₂ (fun pm seg => isSegment mcol pm seg = true) (pms.take segs.length) segs ∧
      (∀ seg ∈ segs, (seg.filter Event.isApply).length ≤ 1) ∧
      ((migrateLoop drv db mcol pms s).2.2 = .ret none → segs.length = pms.length) := by
  obtain ⟨segs, h1, h2, h3⟩ := migrateLoop_segments drv db mcol pms s
  refine ⟨segs, eventsSince_append _ _ _ h1, h2, ?_, h3⟩
  intro seg hseg
  obtain ⟨n, hn, rfl⟩ := List.getElem_of_mem hseg
  have hlen := h2.length_eq
  have := (List.forall₂_iff_get.mp h2).2 n (by rw [hlen]; exact hn) hn
  exact isSegment_apply_once mcol _ _ this

/-- Witness of C11: the segments of a run over two entries. -/
theorem ordering_witness :
    ∃ segs : List (List Event),
      eventsSince ⟨shopWorld, []⟩ (migrateLoop refDriver (some shopDb) shopLedger
        [⟨.database recreateShop, some (.collection createOrders)⟩,
          ⟨.collection createOrders, none⟩] ⟨shopWorld, []⟩).1 = segs.flatten ∧
      List.Forall₂ (fun pm seg => isSegment shopLedger pm seg = true)
        ([⟨.database recreateShop, some (.collection createOrders)⟩,
          ⟨.collection createOrders, none⟩].take segs.length) segs ∧
      (∀ seg ∈ segs, (seg.filter Event.isApply).length ≤ 1) ∧
      ((migrateLoop refDriver (some shopDb) shopLedger
        [⟨.database recreateShop, some (.collection createOrders)⟩,
          ⟨.collection createOrders, none⟩] ⟨shopWorld, []⟩).2.2 = .ret none →
        segs.length = [(⟨.database recreateShop, some (.collection createOrders)⟩ :
          PairedMigrations), ⟨.collection createOrders, none⟩].length) :=
  ordering refDriver (some shopDb) shopLedger
    [⟨.database recreateShop, some (.collection createOrders)⟩,
      ⟨.collection createOrders, none⟩] ⟨shopWorld, []⟩

/-! ## Ledger failures -/

/-- C12 (ledger failures are fatal in `migrateNow`). (a) If opening the ledger
collection fails, `migrateNow` returns that error right after the call, the
catalog untouched. (b) If the ledger lookup of an entry fails, the run returns
that error in the state right after the lookup: the entry's apply is not
invoked and no later entry is attempted. (c) If the entry has no ledger row,
its apply succeeds, it is to be recorded and the row creation fails, the run
returns that error in the state right after the row creation: no later entry
is attempted. -/
theorem ledger_failures_fatal {σ : Type} (drv : Driver σ) :
    (∀ (h : DbHandle) (pms : List PairedMigrations) (s : St σ) (err : Error),
      (callCollection drv s h mig_col).2 = .error err →
      migrateNow drv (some h) pms s =
        ((callCollection drv s h mig_col).1, pms, .ret (some err))) ∧
    (∀ (db : Option DbHandle) (mcol : ColHandle) (pm : PairedMigrations)
      (rest : List PairedMigrations) (s : St σ) (err : Error),
      (callDocumentExists drv s mcol pm.change.FileName).2 = .error err →
      migrateLoop drv db mcol (pm :: rest) s =
        ((callDocumentExists drv s mcol pm.change.FileName).1, pm :: rest, .ret (some err)) ∧
      eventsSince s (callDocumentExists drv s mcol pm.change.FileName).1 =
        [.documentExists mcol pm.change.FileName]) ∧
    (∀ (db : Option DbHandle) (mcol : ColHandle) (pm : PairedMigrations)
      (rest : List PairedMigrations) (s s2 : St σ) (m1 : Migration) (err : Error),
      (callDocumentExists drv s mcol pm.change.FileName).2 = .ok false →
      pm.change.migrate drv db
        ((callDocumentExists drv s mcol pm.change.FileName).1.log (.apply pm.change))
          = (s2, m1, .ret none) →
      recorded pm.change = true →
      (callCreateDocument drv s2 mcol (ledgerRow pm.change)).2 = some err →
      migrateLoop drv db mcol (pm :: rest) s =
        ((callCreateDocument drv s2 mcol (ledgerRow pm.change)).1,
          { pm with change := m1 } :: rest, .ret (some err))) := by
  refine ⟨?_, ?_, ?_⟩
  · intro h pms s err hopen
    unfold migrateNow
    simp only []
    rcases hc : callCollection drv s h mig_col with ⟨s1, r⟩
    rw [hc] at hopen
    simp only at hopen
    subst hopen
    rfl
  · intro db mcol pm rest s err hlook
    refine ⟨?_, eventsSince_append _ _ _ (callDocumentExists_trace drv s mcol _)⟩
    simp only [migrateLoop, migrateOne]
    rcases hc : callDocumentExists drv s mcol pm.change.FileName with ⟨s1, r⟩
    rw [hc] at hlook
    simp only at hlook
    subst hlook
    rfl
  · intro db mcol pm rest s s2 m1 err hrow happly hrec hwrite
    obtain ⟨hfn, hcs, hrec1⟩ := migration_migrate_frame drv pm.change db
      ((callDocumentExists drv s mcol pm.change.FileName).1.log (.apply pm.change))
    rw [happly] at hfn hcs hrec1
    simp only at hfn hcs hrec1
    simp only [migrateLoop, migrateOne]
    rcases hc : callDocumentExists drv s mcol pm.change.FileName with ⟨s1, r⟩
    rw [hc] at hrow happly
    simp only at hrow happly
    subst hrow
    simp only [happly, e, Option.isSome_none, Bool.not_false, if_true, hrec1, hrec, hfn, hcs]
    rcases hw : callCreateDocument drv s2 mcol
      { _key := pm.change.FileName, checksum := pm.change.CheckSum } with ⟨s3, werr⟩
    simp only [ledgerRow] at hwrite
    rw [hw] at hwrite
    simp only at hwrite
    subst hwrite
    simp only [ledgerRow, hw]

/-- Witness of C12: the three ledger failures on the reference backend. -/
theorem ledger_failures_fatal_witness :
    migrateNow refDriver (some shopDb) [⟨.collection createOrders, none⟩]
        ⟨brokenShopWorld, []⟩ =
      (⟨shopWorld, [.collection shopDb mig_col]⟩, [⟨.collection createOrders, none⟩],
        .ret (some (.plain "connection reset"))) ∧
    migrateLoop refDriver (some shopDb) shopLedger
        [⟨.collection createOrders, none⟩, ⟨.database dropShop, none⟩]
        ⟨brokenShopWorld, []⟩ =
      (⟨shopWorld, [.documentExists shopLedger "orders"]⟩,
        [⟨.collection createOrders, none⟩, ⟨.database dropShop, none⟩],
        .ret (some (.plain "connection reset"))) ∧
    migrateLoop refDriver (some shopDb) shopLedger
        [⟨.collection createOrders, none⟩, ⟨.database dropShop, none⟩]
        ⟨laterBrokenShopWorld, []⟩ =
      (⟨shopWorld, [.documentExists shopLedger "orders", .apply (.collection createOrders),
          .createDocument shopLedger { _key := "orders", checksum := "bb" }]⟩,
        [⟨.collection createOrders, none⟩, ⟨.database dropShop, none⟩],
        .ret (some (.plain "connection reset"))) :=
  ⟨(ledger_failures_fatal refDriver).1 shopDb _ ⟨brokenShopWorld, []⟩ _ (by rfl),
    ((ledger_failures_fatal refDriver).2.1 (some shopDb) shopLedger
      ⟨.collection createOrders, none⟩ [⟨.database dropShop, none⟩] ⟨brokenShopWorld, []⟩
      (.plain "connection reset") (by rfl)).1,
    (ledger_failures_fatal refDriver).2.2 (some shopDb) shopLedger
      ⟨.collection createOrders, none⟩ [⟨.database dropShop, none⟩]
      ⟨laterBrokenShopWorld, []⟩
      ⟨{ shopWorld with faults := [some (.plain "connection reset")] },
        [.documentExists shopLedger "orders", .apply (.collection createOrders)]⟩
      (.collection createOrders) (.plain "connection reset")
      (by rfl) (by rfl) (by rfl) (by rfl)⟩

/-! ## Ledger provisioning in the bootstrap resolver -/

/-- Lines 135 to 143 of `loadDb` with a resolved handle and a nil error. -/
theorem loadDbFinish_provisions {σ : Type} (drv : Driver σ) (h : DbHandle)
    (pm : List PairedMigrations) (s : St σ) :
    provisions drv h s (loadDbFinish drv (some h) none pm s) := by
  unfold provisions loadDbFinish
  simp only [if_true]
  cases hnf : IsNotFound (errOf (callCollection drv s h mig_col).2) with
  | true =>
    refine ⟨by simp, fun _ => ?_, fun hc => by simp at hc⟩
    simp only [if_true]
    exact eventsSince_append _ _ _ (by simp [callCreateCollection, callCollection])
  | false =>
    refine ⟨by simp, fun hc => by simp at hc, fun _ => ?_⟩
    simp only [Bool.false_eq_true, if_false]
    exact eventsSince_append _ _ _ (by simp [callCollection])

/-- C13, counterexample. Database "shop" exists; the lookup of the ledger
collection fails with an error that is not not-found. `loadDb` does not abort:
it returns the handle with a nil error. -/
theorem loadDb_ignores_lookup_error :
    (callCollection refDriver
      (callDatabase refDriver ⟨laterBrokenShopWorld, []⟩ shopConfig.Db).1 shopDb mig_col).2
      = .error (.plain "connection reset") ∧
    (loadDb refDriver shopConfig (some someClient) [⟨.collection createOrders, none⟩]
      ⟨laterBrokenShopWorld, []⟩).2.2 = .ret (some shopDb, none) := by
  constructor <;> rfl

/-- C13 as amended (ledger provisioning in `loadDb`). Once the handle is
resolved, by open-by-name or by the creation migration of the bootstrap,
`loadDb` looks the ledger collection up; if the lookup reports not-found it
issues one create-collection call for the fixed ledger name; on any other
outcome of the lookup it issues no further call; in every case it returns the
resolved handle with a nil error. -/
theorem ledger_provisioning {σ : Type} (drv : Driver σ) (conf : Config) (c : Client)
    (p0 : PairedMigrations) (rest : List PairedMigrations) (s : St σ) :
    (∀ h : DbHandle, (callDatabase drv s conf.Db).2 = .ok h →
      provisions drv h (callDatabase drv s conf.Db).1
        (loadDb drv conf (some c) (p0 :: rest) s)) ∧
    (∀ (err : Error) (o o2 : Database) (s2 : St σ) (h : DbHandle),
      (callDatabase drv s conf.Db).2 = .error err → IsNotFound (some err) = true →
      p0.change = .database o → o.Name = conf.Db →
      Database.migrate drv { o with cl := some c } none
        ((callDatabase drv s conf.Db).1.log (.apply (.database { o with cl := some c })))
          = (s2, o2, .ret none) →
      o2.db = some h →
      provisions drv h s2 (loadDb drv conf (some c) (p0 :: rest) s)) := by
  constructor
  · intro h hopen
    have : loadDb drv conf (some c) (p0 :: rest) s =
        loadDbFinish drv (some h) none
          (match p0.change with
            | .database _ => rest
            | .collection _ => p0 :: rest) (callDatabase drv s conf.Db).1 := by
      simp only [loadDb, hopen, errOf, valOf, IsNotFound]
      cases p0.change <;> simp
    rw [this]
    exact loadDbFinish_provisions drv h _ _
  · intro err o o2 s2 h hopen hnf hp hname hmig hdb
    have : loadDb drv conf (some c) (p0 :: rest) s =
        loadDbFinish drv (some h) none ({ p0 with change := .database o2 } :: rest) s2 := by
      simp only [hname] at hmig
      simp only [loadDb, hopen, errOf, valOf, hnf, hp, hname]
      simp [hmig, hdb]
    rw [this]
    exact loadDbFinish_provisions drv h _ _

/-- Witness of C13: "shop" opened with no ledger collection, and "shop" created
by the bootstrap: the ledger collection is looked up and created. -/
theorem ledger_provisioning_witness :
    eventsSince (callDatabase refDriver ⟨bareShopWorld, []⟩ shopConfig.Db).1
      (loadDb refDriver shopConfig (some someClient) [⟨.collection createOrders, none⟩]
        ⟨bareShopWorld, []⟩).1 =
      [.collection shopDb mig_col, .createCollection shopDb mig_col] ∧
    eventsSince
      (⟨emptyWorld, [.openDatabase "shop", .apply (.database recreateShop)]⟩ : St World)
      (loadDb refDriver shopConfig (some someClient) [⟨.database createShop, none⟩]
        ⟨emptyWorld, []⟩).1 =
      [.createDatabase "shop" ⟨[]⟩, .collection shopDb mig_col,
        .createCollection shopDb mig_col] :=
  ⟨((ledger_provisioning refDriver shopConfig someClient ⟨.collection createOrders, none⟩ []
      ⟨bareShopWorld, []⟩).1 shopDb (by rfl)).2.1 (by rfl), by rfl⟩

/-! ## The migration variants -/

/-- C14, counterexample. A Database migration with action modify is rejected
with the unsupported-operation error naming "modify", with no backend call. -/
theorem database_modify_is_unsupported :
    Database.migrate refDriver alterShop (some shopDb) ⟨shopWorld, []⟩ =
      (⟨shopWorld, []⟩, alterShop,
        .ret (some (.plain "Database migration does not support op modify"))) := by
  rfl

/-- C14 as amended (unsupported operations of `Database.migrate`). If the
action is neither create nor delete, modify included, `Database.migrate`
returns the unsupported-operation error naming the action, issues no call and
changes nothing. If the action is create or delete, the only error it returns
is the one its backend call (create-database or delete-database) returned. -/
theorem unsupported_operation {σ : Type} (drv : Driver σ) (d : Database)
    (db : Option DbHandle) (s : St σ) :
    (d.Action ≠ .CREATE → d.Action ≠ .DELETE →
      d.migrate drv db s = (s, d, .ret (some (unsupported d.Action)))) ∧
    (d.Action = .MODIFY → d.migrate drv db s = (s, d, .ret (some (unsupported .MODIFY)))) ∧
    (d.Action = .CREATE ∨ d.Action = .DELETE →
      ∀ err, (d.migrate drv db s).2.2 = .ret (some err) →
        (d.Action = .CREATE ∧
          (callCreateDatabase drv s d.Name d.createOptions).2 = .error err) ∨
        (d.Action = .DELETE ∧ ∃ h, db = some h ∧ (callRemove drv s h).2 = some err)) := by
  refine ⟨?_, ?_, ?_⟩
  · intro h1 h2
    unfold Database.migrate unsupported
    cases hA : d.Action <;> simp_all
  · intro hA
    unfold Database.migrate unsupported
    simp [hA]
  · intro hA err herr
    unfold Database.migrate at herr
    rcases hA with hA | hA
    · left
      refine ⟨hA, ?_⟩
      simp only [hA] at herr
      cases hdb : d.db with
      | some h => simp [hdb] at herr
      | none =>
        simp only [hdb] at herr
        cases hcl : d.cl with
        | none => simp [hcl] at herr
        | some c =>
          simp only [hcl] at herr
          rcases hc : callCreateDatabase drv s d.Name d.createOptions with ⟨s1, r⟩
          rw [hc] at herr
          cases r with
          | ok newdb => simp at herr
          | error er =>
            simp only [Outcome.ret.injEq, Option.some.injEq] at herr
            rw [herr]
    · right
      refine ⟨hA, ?_⟩
      simp only [hA] at herr
      cases db with
      | none => simp at herr
      | some h =>
        simp only [Outcome.ret.injEq] at herr
        exact ⟨h, rfl, herr⟩

/-- Witness of C14: modify is rejected, and the error of a create is the one
the create-database call returned. -/
theorem unsupported_operation_witness :
    Database.migrate refDriver alterShop (some shopDb) ⟨shopWorld, []⟩ =
      (⟨shopWorld, []⟩, alterShop, .ret (some (unsupported .MODIFY))) ∧
    ((callCreateDatabase refDriver ⟨shopWorld, []⟩ "shop" recreateShop.createOptions).2
      = .error conflict) :=
  ⟨(unsupported_operation refDriver alterShop (some shopDb) ⟨shopWorld, []⟩).2.1 rfl,
    ((unsupported_operation refDriver recreateShop (some shopDb) ⟨shopWorld, []⟩).2.2
      (Or.inl rfl) conflict (by rfl)).elim (fun h => h.2)
      (fun h => absurd h.1 (by decide))⟩

/-- C15, counterexample. CreateDB("shop") as the catalog builds it holds no
handle and no client: `Database.migrate` issues no create-database call, the
call on the nil client panics. -/
theorem database_create_without_client_panics :
    createShop.db = none ∧
    Database.migrate refDriver createShop none ⟨emptyWorld, []⟩ =
      (⟨emptyWorld, []⟩, createShop, .panic nilDeref) := by
  constructor <;> rfl

/-- C15 as amended (`Database.migrate` with action create). If the instance
holds a live handle it returns nil, issues no call and leaves the instance as
it is. Otherwise, when the instance holds a client, it issues exactly one call,
create-database with the migration's name and one user entry per allowed
user, in order, each with that user's name and password and marked active; on
success it stores the returned handle on the instance, on failure it returns
the backend's error and leaves the instance, whose handle is unset, as it
is. -/
theorem database_create {σ : Type} (drv : Driver σ) (d : Database) (db : Option DbHandle)
    (s : St σ) (hcreate : d.Action = .CREATE) :
    (∀ h, d.db = some h → d.migrate drv db s = (s, d, .ret none)) ∧
    (∀ c, d.db = none → d.cl = some c →
      (d.migrate drv db s).1 = (callCreateDatabase drv s d.Name ⟨activeUsers d.Allowed⟩).1 ∧
      eventsSince s (d.migrate drv db s).1 =
        [.createDatabase d.Name ⟨activeUsers d.Allowed⟩] ∧
      (∀ newdb, (callCreateDatabase drv s d.Name ⟨activeUsers d.Allowed⟩).2 = .ok newdb →
        (d.migrate drv db s).2 = ({ d with db := some newdb }, .ret none)) ∧
      (∀ err, (callCreateDatabase drv s d.Name ⟨activeUsers d.Allowed⟩).2 = .error err →
        (d.migrate drv db s).2 = (d, .ret (some err)))) := by
  constructor
  · intro h hdb
    simp [Database.migrate, hcreate, hdb]
  · intro c hdb hcl
    have hopt : d.createOptions = ⟨activeUsers d.Allowed⟩ := rfl
    unfold Database.migrate
    simp only [hcreate, hdb, hcl, hopt]
    rcases hc : callCreateDatabase drv s d.Name ⟨activeUsers d.Allowed⟩ with ⟨s1, r⟩
    have htr : s1.trace = s.trace ++ [.createDatabase d.Name ⟨activeUsers d.Allowed⟩] := by
      have : (callCreateDatabase drv s d.Name ⟨activeUsers d.Allowed⟩).1.trace =
          s.trace ++ [.createDatabase d.Name ⟨activeUsers d.Allowed⟩] := rfl
      rw [hc] at this; exact this
    cases r with
    | ok newdb =>
      refine ⟨rfl, eventsSince_append _ _ _ htr, ?_, ?_⟩
      · intro n hn
        simp only [Except.ok.injEq] at hn
        subst hn; rfl
      · intro er her; simp at her
    | error er =>
      refine ⟨rfl, eventsSince_append _ _ _ htr, ?_, ?_⟩
      · intro n hn; simp at hn
      · intro er2 her
        simp only [Except.error.injEq] at her
        subst her; rfl

/-- Witness of C15: CreateDB("shop") with two allowed users on the empty
backend. -/
theorem database_create_witness :
    Database.migrate refDriver createShopWithUsers none ⟨emptyWorld, []⟩ =
      (⟨{ emptyWorld with dbs := ["shop"] },
        [.createDatabase "shop"
          ⟨[⟨"ann", "pw1", some true⟩, ⟨"bob", "pw2", some true⟩]⟩]⟩,
        { createShopWithUsers with db := some shopDb }, .ret none) ∧
    eventsSince ⟨emptyWorld, []⟩
      (Database.migrate refDriver createShopWithUsers none ⟨emptyWorld, []⟩).1 =
      [.createDatabase "shop" ⟨[⟨"ann", "pw1", some true⟩, ⟨"bob", "pw2", some true⟩]⟩] :=
  ⟨by rfl, ((database_create refDriver createShopWithUsers none ⟨emptyWorld, []⟩ rfl).2
    someClient rfl rfl).2.1⟩

/-- C19 (`Collection.migrate`). For every action value it returns nil in the
state it was called in: no backend call, no event; the migration, passed by
value, is what it was, and the database handle is only read. -/
theorem collection_migrate_noop {σ : Type} (drv : Driver σ) (cl : Collection)
    (db : Option DbHandle) (s : St σ) :
    cl.migrate drv db s = (s, .ret none) ∧
    (Migration.collection cl).migrate drv db s = (s, .collection cl, .ret none) ∧
    eventsSince s (cl.migrate drv db s).1 = [] := by
  refine ⟨collection_migrate_eq drv cl db s, migration_migrate_collection drv cl db s, ?_⟩
  rw [collection_migrate_eq]
  exact eventsSince_append _ _ _ (by simp)

/-- For the empty catalog `loadDb` indexes the list when open-by-name
succeeds or fails as not-found, and panics; on any other error of open-by-name
it returns that error without touching the list. -/
theorem loadDb_empty_catalog {σ : Type} (drv : Driver σ) (conf : Config) (c : Client)
    (s : St σ) :
    (loadDb drv conf (some c) [] s).2.2 =
      if IsNotFound (errOf (callDatabase drv s conf.Db).2) = true ∨
          errOf (callDatabase drv s conf.Db).2 = none then .panic indexOutOfRange
      else .ret (none, errOf (callDatabase drv s conf.Db).2) := by
  simp only [loadDb]
  rcases hc : callDatabase drv s conf.Db with ⟨s1, r⟩
  cases r with
  | ok h => simp [errOf, IsNotFound]
  | error er =>
    cases hnf : IsNotFound (some er) <;> simp [errOf, valOf, hnf, loadDbFinish]

/-- C20 (totality of `loadDb`), the code at the failing input: with the empty
catalog, `loadDb` indexes the list at 0 and panics, both when open-by-name
succeeds and when it fails as not-found. -/
theorem loadDb_empty_catalog_panics :
    loadDb refDriver shopConfig (some someClient) [] ⟨shopWorld, []⟩ =
      (⟨shopWorld, [.openDatabase "shop"]⟩, [], .panic indexOutOfRange) ∧
    loadDb refDriver shopConfig (some someClient) [] ⟨emptyWorld, []⟩ =
      (⟨emptyWorld, [.openDatabase "shop"]⟩, [], .panic indexOutOfRange) := by
  constructor <;> rfl

/-! ## Undo -/

/-- The undo invocations of consecutive events. -/
theorem undoCalls_append (xs ys : List Event) :
    undoCalls (xs ++ ys) = undoCalls xs + undoCalls ys := by
  induction xs with
  | nil => simp [undoCalls]
  | cons ev xs ih => cases ev <;> simp [undoCalls, ih]; omega

/-- Database-level calls are no undo. -/
theorem undoCalls_variant (evs : List Event) (h : evs.all Event.isVariantCall = true) :
    undoCalls evs = 0 := by
  induction evs with
  | nil => rfl
  | cons ev evs ih =>
    simp only [List.all_cons, Bool.and_eq_true] at h
    cases ev <;> simp_all [undoCalls, Event.isVariantCall]

/-- The loop body on one entry: what it appends to the trace either holds no
undo, or is the lookup (which found no row), the apply of the change (which
failed with a backend-reported error) with its database-level calls, and the
undo of the entry with its database-level calls. -/
theorem migrateOne_undo {σ : Type} (drv : Driver σ) (db : Option DbHandle)
    (mcol : ColHandle) (pm : PairedMigrations) (s : St σ) :
    ∃ seg, (migrateOne drv db mcol pm s).1.trace = s.trace ++ seg ∧
      (undoCalls seg = 0 ∨
        ∃ (u : Migration) (err : Error) (s2 : St σ) (m1 : Migration) (evs evs1 : List Event),
          pm.undo = some u ∧
          (callDocumentExists drv s mcol pm.change.FileName).2 = .ok false ∧
          pm.change.migrate drv db
            ((callDocumentExists drv s mcol pm.change.FileName).1.log (.apply pm.change))
              = (s2, m1, .ret (some err)) ∧
          IsArangoError (some err) = true ∧
          seg = .documentExists mcol pm.change.FileName :: .apply pm.change :: evs ++
            .undo u :: evs1 ∧
          evs.all Event.isVariantCall = true ∧ evs1.all Event.isVariantCall = true) := by
  obtain ⟨evs, htr, hvar, -⟩ := migration_migrate_trace drv pm.change db
    ((callDocumentExists drv s mcol pm.change.FileName).1.log (.apply pm.change))
  have hu0 := undoCalls_variant evs hvar
  unfold migrateOne
  simp only []
  rcases hce : callDocumentExists drv s mcol pm.change.FileName with ⟨s1, r⟩
  have hs1 : s1.trace = s.trace ++ [.documentExists mcol pm.change.FileName] := by
    have := callDocumentExists_trace drv s mcol pm.change.FileName
    rw [hce] at this; exact this
  rw [hce] at htr
  simp only at htr
  rcases r with err | found
  · exact ⟨_, hs1, Or.inl rfl⟩
  · cases found with
    | true => exact ⟨_, hs1, Or.inl rfl⟩
    | false =>
      simp only []
      rcases hm : Migration.migrate drv pm.change db (s1.log (.apply pm.change))
        with ⟨s2, m1, res⟩
      rw [hm] at htr
      simp only at htr
      have hs2 : s2.trace = s.trace ++
          (.documentExists mcol pm.change.FileName :: .apply pm.change :: evs) := by
        rw [htr]; simp [St.log, hs1]
      have hseg0 : undoCalls
          (.documentExists mcol pm.change.FileName :: .apply pm.change :: evs) = 0 := by
        simp [undoCalls, hu0]
      cases res with
      | panic msg => exact ⟨_, hs2, Or.inl hseg0⟩
      | ret err =>
        cases err with
        | none =>
          simp only [e, Option.isSome_none, Bool.not_false, if_true]
          split
          · rcases hcd : callCreateDocument drv s2 mcol
              { _key := m1.FileName, checksum := m1.CheckSum } with ⟨s3, werr⟩
            have hs3 : s3.trace = s.trace ++
                (.documentExists mcol pm.change.FileName :: .apply pm.change ::
                  (evs ++ [.createDocument mcol
                    { _key := m1.FileName, checksum := m1.CheckSum }])) := by
              have : (callCreateDocument drv s2 mcol
                { _key := m1.FileName, checksum := m1.CheckSum }).1.trace =
                  s2.trace ++ [.createDocument mcol
                    { _key := m1.FileName, checksum := m1.CheckSum }] := rfl
              rw [hcd] at this
              rw [this, hs2]; simp
            cases werr <;>
              exact ⟨_, hs3, Or.inl (by simp [undoCalls, undoCalls_append, hu0])⟩
          · exact ⟨_, hs2, Or.inl hseg0⟩
        | some er =>
          simp only [e, Option.isSome_some, Bool.not_true, Bool.false_eq_true, if_false,
            Bool.true_and]
          cases hu : pm.undo with
          | none =>
            cases IsArangoError (some er) <;> exact ⟨_, hs2, Or.inl hseg0⟩
          | some um =>
            cases hA : IsArangoError (some er) with
            | false => exact ⟨_, hs2, Or.inl hseg0⟩
            | true =>
              simp only []
              obtain ⟨evs1, htr1, hvar1, -⟩ :=
                migration_migrate_trace drv um db (s2.log (.undo um))
              rcases hum : Migration.migrate drv um db (s2.log (.undo um)) with ⟨s3, u1, ures⟩
              rw [hum] at htr1
              simp only at htr1
              have hs3 : s3.trace = s.trace ++
                  (.documentExists mcol pm.change.FileName :: .apply pm.change ::
                    evs ++ .undo um :: evs1) := by
                rw [htr1]; simp [St.log, hs2]
              cases ures with
              | panic msg =>
                exact ⟨_, hs3, Or.inr ⟨um, er, s2, m1, evs, evs1, rfl, by trivial, by trivial, hA, rfl,
                  hvar, hvar1⟩⟩
              | ret uerr =>
                simp only []
                split <;>
                  exact ⟨_, hs3, Or.inr ⟨um, er, s2, m1, evs, evs1, rfl, by trivial, by trivial, hA, rfl,
                    hvar, hvar1⟩⟩

/-- C18 (undo is only ever compensation). While the engine processes one
catalog entry, from any state of any run: it invokes undo at most once; if it
invokes undo, then the entry has that undo, the lookup found no ledger row,
the change's `migrate` returned a backend-reported error, and the undo comes
right after the apply of the change and the database-level calls of that
apply; so it invokes no undo for an entry skipped because of an existing
ledger row, nor for an entry whose change returned nil. -/
theorem undo_only_compensation {σ : Type} (drv : Driver σ) (db : Option DbHandle)
    (mcol : ColHandle) (pm : PairedMigrations) (s : St σ) :
    undoCalls (eventsSince s (migrateOne drv db mcol pm s).1) ≤ 1 ∧
    (undoCalls (eventsSince s (migrateOne drv db mcol pm s).1) = 1 →
      ∃ (u : Migration) (err : Error) (s2 : St σ) (m1 : Migration) (evs evs1 : List Event),
        pm.undo = some u ∧
        (callDocumentExists drv s mcol pm.change.FileName).2 = .ok false ∧
        pm.change.migrate drv db
          ((callDocumentExists drv s mcol pm.change.FileName).1.log (.apply pm.change))
            = (s2, m1, .ret (some err)) ∧
        IsArangoError (some err) = true ∧
        eventsSince s (migrateOne drv db mcol pm s).1 =
          .documentExists mcol pm.change.FileName :: .apply pm.change :: evs ++
            .undo u :: evs1 ∧
        evs.all Event.isVariantCall = true ∧ evs1.all Event.isVariantCall = true) ∧
    ((callDocumentExists drv s mcol pm.change.FileName).2 = .ok true →
      undoCalls (eventsSince s (migrateOne drv db mcol pm s).1) = 0) ∧
    (∀ (s2 : St σ) (m1 : Migration),
      pm.change.migrate drv db
        ((callDocumentExists drv s mcol pm.change.FileName).1.log (.apply pm.change))
          = (s2, m1, .ret none) →
      undoCalls (eventsSince s (migrateOne drv db mcol pm s).1) = 0) := by
  obtain ⟨seg, htr, h⟩ := migrateOne_undo drv db mcol pm s
  rw [eventsSince_append _ _ _ htr]
  rcases h with h | ⟨u, err, s2, m1, evs, evs1, h1, h2, h3, h4, h5, h6, h7⟩
  · rw [h]
    exact ⟨by omega, fun hc => absurd hc (by omega), fun _ => rfl, fun _ _ _ => rfl⟩
  · refine ⟨?_, fun _ => ⟨u, err, s2, m1, evs, evs1, h1, h2, h3, h4, h5, h6, h7⟩, ?_, ?_⟩
    · rw [h5]
      simp [undoCalls, undoCalls_append, undoCalls_variant _ h6, undoCalls_variant _ h7]
    · intro hc
      rw [h2] at hc
      simp at hc
    · intro s2' m1' hc
      rw [h3] at hc
      simp at hc

/-- Witness of C18: in the rollback of the refused CreateDB("shop") the undo is
invoked once, right after the apply and its create-database call. -/
theorem undo_only_compensation_witness :
    undoCalls (eventsSince ⟨shopWorld, []⟩
      (migrateOne refDriver (some shopDb) shopLedger
        ⟨.database recreateShop, some (.collection createOrders)⟩ ⟨shopWorld, []⟩).1) ≤ 1 ∧
    eventsSince ⟨shopWorld, []⟩
      (migrateOne refDriver (some shopDb) shopLedger
        ⟨.database recreateShop, some (.collection createOrders)⟩ ⟨shopWorld, []⟩).1 =
      [.documentExists shopLedger "0001_shop", .apply (.database recreateShop),
        .createDatabase "shop" ⟨[]⟩, .undo (.collection createOrders)] :=
  ⟨(undo_only_compensation refDriver (some shopDb) shopLedger
    ⟨.database recreateShop, some (.collection createOrders)⟩ ⟨shopWorld, []⟩).1, by rfl⟩

/-! ## Invariants of a run -/

/-- A property of the engine state that the create-database and
delete-database calls preserve is preserved by `Database.migrate`. -/
theorem database_migrate_preserves {σ : Type} (drv : Driver σ) (P : St σ → Prop)
    (hcd : ∀ s name opts, P s → P (callCreateDatabase drv s name opts).1)
    (hrm : ∀ s h, P s → P (callRemove drv s h).1)
    (d : Database) (db : Option DbHandle) (s : St σ) (h : P s) :
    P (d.migrate drv db s).1 := by
  unfold Database.migrate
  cases hA : d.Action with
  | CREATE =>
    cases hdb : d.db with
    | some hd => exact h
    | none =>
      cases hcl : d.cl with
      | none => exact h
      | some c =>
        simp only []
        have := hcd s d.Name d.createOptions h
        rcases hc : callCreateDatabase drv s d.Name d.createOptions with ⟨s1, r⟩
        rw [hc] at this
        cases r <;> exact this
  | DELETE =>
    cases db with
    | none => exact h
    | some hd => exact hrm s hd h
  | MODIFY => exact h
  | other n => exact h

/-- The same for the dispatch on any migration. -/
theorem migration_migrate_preserves {σ : Type} (drv : Driver σ) (P : St σ → Prop)
    (hcd : ∀ s name opts, P s → P (callCreateDatabase drv s name opts).1)
    (hrm : ∀ s h, P s → P (callRemove drv s h).1)
    (m : Migration) (db : Option DbHandle) (s : St σ) (h : P s) :
    P (m.migrate drv db s).1 := by
  cases m with
  | database d =>
    simpa [Migration.migrate] using database_migrate_preserves drv P hcd hrm d db s h
  | collection c =>
    simp only [Migration.migrate, collection_migrate_eq]
    exact h

/-- A property of the engine state that every step the engine can take
preserves (logging an invocation, create-database, delete-database, ledger
lookup, row creation) is preserved by the loop body of `migrateNow`. -/
theorem migrateOne_preserves {σ : Type} (drv : Driver σ) (P : St σ → Prop)
    (hlog : ∀ s m, P s → P (s.log (.apply m)) ∧ P (s.log (.undo m)))
    (hcd : ∀ s name opts, P s → P (callCreateDatabase drv s name opts).1)
    (hrm : ∀ s h, P s → P (callRemove drv s h).1)
    (hde : ∀ s col key, P s → P (callDocumentExists drv s col key).1)
    (hw : ∀ s col doc, P s → P (callCreateDocument drv s col doc).1)
    (db : Option DbHandle) (mcol : ColHandle) (pm : PairedMigrations) (s : St σ) (h : P s) :
    P (migrateOne drv db mcol pm s).1 := by
  unfold migrateOne
  simp only []
  have h1 := hde s mcol pm.change.FileName h
  rcases hce : callDocumentExists drv s mcol pm.change.FileName with ⟨s1, r⟩
  rw [hce] at h1
  simp only at h1
  rcases r with err | found
  · exact h1
  · cases found with
    | true => exact h1
    | false =>
      simp only []
      have h2 := migration_migrate_preserves drv P hcd hrm pm.change db _
        (hlog s1 pm.change h1).1
      rcases hm : Migration.migrate drv pm.change db (s1.log (.apply pm.change))
        with ⟨s2, m1, res⟩
      rw [hm] at h2
      simp only at h2
      cases res with
      | panic msg => exact h2
      | ret err =>
        simp only []
        split
        · split
          · have h3 := hw s2 mcol { _key := m1.FileName, checksum := m1.CheckSum } h2
            rcases hcd' : callCreateDocument drv s2 mcol
              { _key := m1.FileName, checksum := m1.CheckSum } with ⟨s3, werr⟩
            rw [hcd'] at h3
            cases werr <;> exact h3
          · exact h2
        · split
          · rename_i um _ _
            have h3 := migration_migrate_preserves drv P hcd hrm um db _ (hlog s2 um h2).2
            rcases hum : Migration.migrate drv um db (s2.log (.undo um)) with ⟨s3, u1, ures⟩
            rw [hum] at h3
            simp only at h3
            cases ures with
            | panic msg => exact h3
            | ret uerr =>
              simp only []
              split <;> exact h3
          · exact h2

/-- The same for the loop of `migrateNow`. -/
theorem migrateLoop_preserves {σ : Type} (drv : Driver σ) (P : St σ → Prop)
    (hlog : ∀ s m, P s → P (s.log (.apply m)) ∧ P (s.log (.undo m)))
    (hcd : ∀ s name opts, P s → P (callCreateDatabase drv s name opts).1)
    (hrm : ∀ s h, P s → P (callRemove drv s h).1)
    (hde : ∀ s col key, P s → P (callDocumentExists drv s col key).1)
    (hw : ∀ s col doc, P s → P (callCreateDocument drv s col doc).1)
    (db : Option DbHandle) (mcol : ColHandle) (pms : List PairedMigrations) :
    ∀ s : St σ, P s → P (migrateLoop drv db mcol pms s).1 := by
  induction pms with
  | nil => intro s h; exact h
  | cons pm rest ih =>
    intro s h
    have h1 := migrateOne_preserves drv P hlog hcd hrm hde hw db mcol pm s h
    rcases hone : migrateOne drv db mcol pm s with ⟨s1, pm1, _ | r⟩
    · rw [hone] at h1
      simp only [migrateLoop, hone]
      exact ih s1 h1
    · rw [hone] at h1
      simp only [migrateLoop, hone]
      exact h1

/-- The same for `migrateNow`, with the opening of the ledger collection. -/
theorem migrateNow_preserves {σ : Type} (drv : Driver σ) (P : St σ → Prop)
    (hlog : ∀ s m, P s → P (s.log (.apply m)) ∧ P (s.log (.undo m)))
    (hcd : ∀ s name opts, P s → P (callCreateDatabase drv s name opts).1)
    (hrm : ∀ s h, P s → P (callRemove drv s h).1)
    (hde : ∀ s col key, P s → P (callDocumentExists drv s col key).1)
    (hw : ∀ s col doc, P s → P (callCreateDocument drv s col doc).1)
    (hcol : ∀ s h name, P s → P (callCollection drv s h name).1)
    (db : Option DbHandle) (pms : List PairedMigrations) (s : St σ) (h : P s) :
    P (migrateNow drv db pms s).1 := by
  unfold migrateNow
  cases db with
  | none => exact h
  | some hd =>
    simp only []
    have h1 := hcol s hd mig_col h
    rcases hc : callCollection drv s hd mig_col with ⟨s1, r⟩
    rw [hc] at h1
    cases r with
    | error err => exact h1
    | ok mcol => exact migrateLoop_preserves drv P hlog hcd hrm hde hw (some hd) mcol pms s1 h1

/-! ## The ledger on the reference backend -/

/-- The collection lookup of the reference backend changes no data. -/
theorem ref_collection_data (s : St World) (h : DbHandle) (name : String) :
    (callCollection refDriver s h name).1.backend.data = s.backend.data := by
  obtain ⟨⟨dbs, cols, docs, faults, nk⟩, tr⟩ := s
  simp only [callCollection, refDriver, World.Collection, World.pop]
  cases faults with
  | nil =>
    simp only []
    split <;> rfl
  | cons f fs =>
    cases f with
    | none =>
      simp only []
      split <;> rfl
    | some err => rfl

/-- The ledger lookup of the reference backend changes no data. -/
theorem ref_documentExists_data (s : St World) (col : ColHandle) (key : String) :
    (callDocumentExists refDriver s col key).1.backend.data = s.backend.data := by
  obtain ⟨⟨dbs, cols, docs, faults, nk⟩, tr⟩ := s
  simp only [callDocumentExists, refDriver, World.DocumentExists, World.pop]
  cases faults with
  | nil => rfl
  | cons f fs => cases f <;> rfl

/-- The row creation of the reference backend fails and changes nothing, or
succeeds and appends one document, the posted one under a generated key. -/
theorem ref_createDocument_docs (s : St World) (col : ColHandle) (doc : migration) :
    ((callCreateDocument refDriver s col doc).2 ≠ none ∧
      (callCreateDocument refDriver s col doc).1.backend.data = s.backend.data) ∨
    ((callCreateDocument refDriver s col doc).2 = none ∧
      (callCreateDocument refDriver s col doc).1.backend.dbs = s.backend.dbs ∧
      (callCreateDocument refDriver s col doc).1.backend.cols = s.backend.cols ∧
      (callCreateDocument refDriver s col doc).1.backend.docs =
        s.backend.docs ++ [(col, ⟨.generated s.backend.nextKey, doc.posted⟩)]) := by
  obtain ⟨⟨dbs, cols, docs, faults, nk⟩, tr⟩ := s
  simp only [callCreateDocument, refDriver, World.CreateDocument, World.pop]
  cases faults with
  | nil =>
    simp only []
    by_cases hc : col ∈ cols
    · right; simp [hc, migration.posted]
    · left; simp [hc, World.data, notFound]
  | cons f fs =>
    cases f with
    | some err => left; exact ⟨by simp, rfl⟩
    | none =>
      simp only []
      by_cases hc : col ∈ cols
      · right; simp [hc, migration.posted]
      · left; simp [hc, World.data, notFound]

/-- C17, at the failing inputs. Database "shop" exists with an empty ledger.
(1) The catalog holds two Collection changes with the same fileName "orders".
The run completes; the first entry is applied and a row creation with key
"orders" is issued for it; the lookup for the second entry still finds no row
under "orders", so the second entry is applied as well and a second row
creation with key "orders" is issued: the ledger ends with two rows, stored
without attributes under generated keys.
(2) The catalog holds the single change "orders" and the engine is run twice:
the second run applies "orders" again and the ledger ends with two rows. -/
theorem same_fileName_recorded_twice :
    ((migrateNow refDriver (some shopDb)
        [⟨.collection createOrders, none⟩, ⟨.collection createOrdersAgain, none⟩]
        ⟨shopWorld, []⟩).2.2 = .ret none ∧
      (migrateNow refDriver (some shopDb)
        [⟨.collection createOrders, none⟩, ⟨.collection createOrdersAgain, none⟩]
        ⟨shopWorld, []⟩).1.trace =
        [.collection shopDb mig_col,
          .documentExists shopLedger "orders", .apply (.collection createOrders),
          .createDocument shopLedger { _key := "orders", checksum := "bb" },
          .documentExists shopLedger "orders", .apply (.collection createOrdersAgain),
          .createDocument shopLedger { _key := "orders", checksum := "dd" }] ∧
      (migrateNow refDriver (some shopDb)
        [⟨.collection createOrders, none⟩, ⟨.collection createOrdersAgain, none⟩]
        ⟨shopWorld, []⟩).1.backend.ledger "shop" =
        [{ key := .generated 0, attrs := [] }, { key := .generated 1, attrs := [] }] ∧
      (migrateNow refDriver (some shopDb)
        [⟨.collection createOrders, none⟩, ⟨.collection createOrdersAgain, none⟩]
        ⟨shopWorld, []⟩).1.backend.hasRow shopLedger "orders" = false) ∧
    ((migrateNow refDriver (some shopDb) [⟨.collection createOrders, none⟩]
        ⟨shopWorld, []⟩).2.2 = .ret none ∧
      (migrateNow refDriver (some shopDb) [⟨.collection createOrders, none⟩]
        ⟨shopWorld, []⟩).1.backend.ledger "shop" = [{ key := .generated 0, attrs := [] }] ∧
      (migrateNow refDriver (some shopDb) [⟨.collection createOrders, none⟩]
        (migrateNow refDriver (some shopDb) [⟨.collection createOrders, none⟩]
          ⟨shopWorld, []⟩).1).2.2 = .ret none ∧
      eventsSince
        (migrateNow refDriver (some shopDb) [⟨.collection createOrders, none⟩] ⟨shopWorld, []⟩).1
        (migrateNow refDriver (some shopDb) [⟨.collection createOrders, none⟩]
          (migrateNow refDriver (some shopDb) [⟨.collection createOrders, none⟩]
            ⟨shopWorld, []⟩).1).1 =
        [.collection shopDb mig_col,
          .documentExists shopLedger "orders", .apply (.collection createOrders),
          .createDocument shopLedger { _key := "orders", checksum := "bb" }] ∧
      (migrateNow refDriver (some shopDb) [⟨.collection createOrders, none⟩]
        (migrateNow refDriver (some shopDb) [⟨.collection createOrders, none⟩]
          ⟨shopWorld, []⟩).1).1.backend.ledger "shop" =
        [{ key := .generated 0, attrs := [] }, { key := .generated 1, attrs := [] }]) := by
  refine ⟨⟨?_, ?_, ?_, ?_⟩, ⟨?_, ?_, ?_, ?_, ?_⟩⟩ <;> rfl

/-! ## Append-only ledger -/

/-- The delete-database calls of consecutive events. -/
theorem removeCalls_append (xs ys : List Event) :
    removeCalls (xs ++ ys) = removeCalls xs + removeCalls ys := by
  induction xs with
  | nil => simp [removeCalls]
  | cons ev xs ih => cases ev <;> simp [removeCalls, ih]; omega

/-- The create-database call of the reference backend keeps an existing
database and its ledger. -/
theorem ref_createDatabase_ledger (s : St World) (name : String) (opts : CreateDatabaseOptions)
    (n : String) (hn : n ∈ s.backend.dbs) :
    n ∈ (callCreateDatabase refDriver s name opts).1.backend.dbs ∧
    (callCreateDatabase refDriver s name opts).1.backend.ledger n = s.backend.ledger n := by
  obtain ⟨⟨dbs, cols, docs, faults, nk⟩, tr⟩ := s
  simp only at hn
  have key : name ∉ dbs →
      (World.ledger ⟨dbs ++ [name], cols.filter (fun c => c.db ≠ name),
        docs.filter (fun r => r.1.db ≠ name), faults.tail, nk⟩ n) =
        World.ledger ⟨dbs, cols, docs, faults, nk⟩ n := by
    intro hname
    have hne : n ≠ name := fun h => hname (h ▸ hn)
    simp only [World.ledger, List.filter_filter]
    congr 1
    apply List.filter_congr
    rintro ⟨c, m⟩ _
    by_cases hc : c = ⟨n, mig_col⟩
    · subst hc; simp [hne]
    · simp [hc]
  simp only [callCreateDatabase, refDriver, World.CreateDatabase, World.pop]
  cases faults with
  | nil =>
    simp only []
    by_cases hname : name ∈ dbs
    · simp [hname, hn, World.ledger]
    · simp only [hname, if_false]
      exact ⟨by simp [hn], key hname⟩
  | cons f fs =>
    cases f with
    | some err => exact ⟨hn, rfl⟩
    | none =>
      simp only []
      by_cases hname : name ∈ dbs
      · simp [hname, hn, World.ledger]
      · simp only [hname, if_false]
        exact ⟨by simp [hn], key hname⟩

/-- The row creation of the reference backend keeps the databases and only
appends to a ledger. -/
theorem ref_createDocument_ledger (s : St World) (col : ColHandle) (doc : migration)
    (n : String) :
    (callCreateDocument refDriver s col doc).1.backend.dbs = s.backend.dbs ∧
    s.backend.ledger n <+: (callCreateDocument refDriver s col doc).1.backend.ledger n := by
  rcases ref_createDocument_docs s col doc with ⟨-, hd⟩ | ⟨-, h1, -, h3⟩
  · simp only [World.data, Prod.mk.injEq] at hd
    refine ⟨hd.1, ?_⟩
    simp only [World.ledger, hd.2.2]
    exact List.prefix_refl _
  · refine ⟨h1, ?_⟩
    simp only [World.ledger, h3, List.filter_append, List.map_append]
    exact List.prefix_append _ _

/-- The loop of `migrateNow` only appends to the trace, and what it appends are
run events. -/
theorem migrateLoop_run_events {σ : Type} (drv : Driver σ) (db : Option DbHandle)
    (mcol : ColHandle) (pms : List PairedMigrations) (s : St σ) :
    ∃ evs, (migrateLoop drv db mcol pms s).1.trace = s.trace ++ evs ∧
      evs.all Event.isRunEvent = true := by
  have step : ∀ (st st1 : St σ) (ev : Event), st1.trace = st.trace ++ [ev] →
      ev.isRunEvent = true →
      (∃ evs, st.trace = s.trace ++ evs ∧ evs.all Event.isRunEvent = true) →
      ∃ evs, st1.trace = s.trace ++ evs ∧ evs.all Event.isRunEvent = true := by
    rintro st st1 ev htr hev ⟨evs, h1, h2⟩
    exact ⟨evs ++ [ev], by rw [htr, h1, List.append_assoc], by simp [h2, hev]⟩
  exact migrateLoop_preserves drv
    (fun st => ∃ evs, st.trace = s.trace ++ evs ∧ evs.all Event.isRunEvent = true)
    (fun st m hp => ⟨step st _ (.apply m) rfl rfl hp, step st _ (.undo m) rfl rfl hp⟩)
    (fun st name opts hp => step st _ (.createDatabase name opts) rfl rfl hp)
    (fun st h hp => step st _ (.removeDatabase h) rfl rfl hp)
    (fun st col key hp => step st _ (.documentExists col key) rfl rfl hp)
    (fun st col doc hp => step st _ (.createDocument col doc) rfl rfl hp)
    db mcol pms s ⟨[], by simp, rfl⟩

/-- A run over `pre ++ post` whose `pre` part does not go through ends where
the run over `pre` ends. -/
theorem migrateLoop_append_stop {σ : Type} (drv : Driver σ) (db : Option DbHandle)
    (mcol : ColHandle) (pre post : List PairedMigrations) :
    ∀ s0 : St σ, (migrateLoop drv db mcol pre s0).2.2 ≠ .ret none →
      (migrateLoop drv db mcol (pre ++ post) s0).1 = (migrateLoop drv db mcol pre s0).1 := by
  induction pre with
  | nil => intro s0 h; simp [migrateLoop] at h
  | cons pm rest ih =>
    intro s0 h
    rcases hone : migrateOne drv db mcol pm s0 with ⟨s1, pm1, _ | r⟩
    · simp only [migrateLoop, hone, List.cons_append] at h ⊢
      have := ih s1 h
      simp only [List.append_eq] at this ⊢
      rw [this]
    · simp only [migrateLoop, hone, List.cons_append]

/-- The invariant of a run from `s0` for the ledger of database `n`: the trace
is the one of `s0` followed by run events, and as long as no delete-database
call is among them the database exists and its ledger starts with the rows it
had in `s0`. -/
theorem migrateLoop_ledger_grows (s0 : St World) (n : String) (db : Option DbHandle)
    (mcol : ColHandle) (pms : List PairedMigrations) (s : St World)
    (h : ∃ evs, s.trace = s0.trace ++ evs ∧ evs.all Event.isRunEvent = true ∧
      (removeCalls evs = 0 → n ∈ s.backend.dbs ∧ s0.backend.ledger n <+: s.backend.ledger n)) :
    ∃ evs, (migrateLoop refDriver db mcol pms s).1.trace = s0.trace ++ evs ∧
      evs.all Event.isRunEvent = true ∧
      (removeCalls evs = 0 → n ∈ (migrateLoop refDriver db mcol pms s).1.backend.dbs ∧
        s0.backend.ledger n <+: (migrateLoop refDriver db mcol pms s).1.backend.ledger n) := by
  have hsame : ∀ (st st1 : St World) (ev : Event), st1.backend.data = st.backend.data →
      st1.trace = st.trace ++ [ev] → ev.isRunEvent = true →
      (∃ evs, st.trace = s0.trace ++ evs ∧ evs.all Event.isRunEvent = true ∧
        (removeCalls evs = 0 →
          n ∈ st.backend.dbs ∧ s0.backend.ledger n <+: st.backend.ledger n)) →
      ∃ evs, st1.trace = s0.trace ++ evs ∧ evs.all Event.isRunEvent = true ∧
        (removeCalls evs = 0 →
          n ∈ st1.backend.dbs ∧ s0.backend.ledger n <+: st1.backend.ledger n) := by
    rintro st st1 ev hd htr hev ⟨evs, h1, h2, h3⟩
    simp only [World.data, Prod.mk.injEq] at hd
    refine ⟨evs ++ [ev], by rw [htr, h1, List.append_assoc], by simp [h2, hev], ?_⟩
    intro hr
    rw [removeCalls_append] at hr
    have := h3 (by omega)
    simp only [World.ledger, hd.1, hd.2.2]
    exact this
  exact migrateLoop_preserves refDriver
    (fun st => ∃ evs, st.trace = s0.trace ++ evs ∧ evs.all Event.isRunEvent = true ∧
      (removeCalls evs = 0 → n ∈ st.backend.dbs ∧ s0.backend.ledger n <+: st.backend.ledger n))
    (fun st m hp =>
      ⟨hsame st _ (.apply m) rfl rfl rfl hp, hsame st _ (.undo m) rfl rfl rfl hp⟩)
    (fun st name opts hp => by
      obtain ⟨evs, h1, h2, h3⟩ := hp
      refine ⟨evs ++ [.createDatabase name opts], ?_, by simp [h2, Event.isRunEvent], ?_⟩
      · simp [callCreateDatabase, h1]
      · intro hr
        rw [removeCalls_append] at hr
        obtain ⟨hn, hl⟩ := h3 (by omega)
        obtain ⟨hn1, hl1⟩ := ref_createDatabase_ledger st name opts n hn
        exact ⟨hn1, by rw [hl1]; exact hl⟩)
    (fun st hd hp => by
      obtain ⟨evs, h1, h2, -⟩ := hp
      refine ⟨evs ++ [.removeDatabase hd], ?_, by simp [h2, Event.isRunEvent], ?_⟩
      · simp [callRemove, h1]
      · intro hr
        rw [removeCalls_append] at hr
        simp [removeCalls] at hr)
    (fun st col key hp =>
      hsame st _ (.documentExists col key) (ref_documentExists_data st col key) rfl rfl hp)
    (fun st col doc hp => by
      obtain ⟨evs, h1, h2, h3⟩ := hp
      refine ⟨evs ++ [.createDocument col doc], ?_, by simp [h2, Event.isRunEvent], ?_⟩
      · simp [callCreateDocument, h1]
      · intro hr
        rw [removeCalls_append] at hr
        obtain ⟨hn, hl⟩ := h3 (by omega)
        obtain ⟨hd1, hl1⟩ := ref_createDocument_ledger st col doc n
        exact ⟨by rw [hd1]; exact hn, hl.trans hl1⟩)
    db mcol pms s h

/-- The loop over `pre ++ post` from a state in which the database exists: as
long as no delete-database call is issued, the ledger the loop over `pre`
leaves starts with the rows of the start, and the ledger the loop over
`pre ++ post` leaves starts with the rows the loop over `pre` left. -/
theorem migrateLoop_take_ledger (n : String) (db : Option DbHandle) (mcol : ColHandle)
    (pre post : List PairedMigrations) (s : St World) (hn : n ∈ s.backend.dbs) :
    ∃ evs, (migrateLoop refDriver db mcol (pre ++ post) s).1.trace = s.trace ++ evs ∧
      evs.all Event.isRunEvent = true ∧
      (removeCalls evs = 0 →
        s.backend.ledger n <+: (migrateLoop refDriver db mcol pre s).1.backend.ledger n ∧
        (migrateLoop refDriver db mcol pre s).1.backend.ledger n <+:
          (migrateLoop refDriver db mcol (pre ++ post) s).1.backend.ledger n) := by
  obtain ⟨evs1, t1, a1, g1⟩ := migrateLoop_ledger_grows s n db mcol pre s
    ⟨[], by simp, rfl, fun _ => ⟨hn, List.prefix_refl _⟩⟩
  by_cases hpre : (migrateLoop refDriver db mcol pre s).2.2 = .ret none
  · rw [migrateLoop_append refDriver db mcol pre post s hpre]
    simp only []
    obtain ⟨evs2, t2, a2⟩ := migrateLoop_run_events refDriver db mcol post
      (migrateLoop refDriver db mcol pre s).1
    refine ⟨evs1 ++ evs2, by rw [t2, t1, List.append_assoc], by simp [a1, a2], ?_⟩
    intro hr
    rw [removeCalls_append] at hr
    obtain ⟨hn1, hl1⟩ := g1 (by omega)
    obtain ⟨evs3, t3, -, g3⟩ := migrateLoop_ledger_grows (migrateLoop refDriver db mcol pre s).1
      n db mcol post (migrateLoop refDriver db mcol pre s).1
      ⟨[], by simp, rfl, fun _ => ⟨hn1, List.prefix_refl _⟩⟩
    have heq : evs3 = evs2 := List.append_cancel_left (t3.symm.trans t2)
    subst heq
    exact ⟨hl1, (g3 (by omega)).2⟩
  · rw [migrateLoop_append_stop refDriver db mcol pre post s hpre]
    exact ⟨evs1, t1, a1, fun hr => ⟨(g1 hr).2, List.prefix_refl _⟩⟩

/-- The same for `migrateNow`, with the opening of the ledger collection. -/
theorem migrateNow_take_ledger (db : DbHandle) (pre post : List PairedMigrations)
    (s : St World) :
    ∃ evs, (migrateNow refDriver (some db) (pre ++ post) s).1.trace = s.trace ++ evs ∧
      evs.all Event.isRunEvent = true ∧
      (removeCalls evs = 0 →
        s.backend.ledger db.Name <+:
          (migrateNow refDriver (some db) pre s).1.backend.ledger db.Name ∧
        (migrateNow refDriver (some db) pre s).1.backend.ledger db.Name <+:
          (migrateNow refDriver (some db) (pre ++ post) s).1.backend.ledger db.Name) := by
  have hdata := ref_collection_data s db mig_col
  unfold migrateNow
  simp only []
  have htr : (callCollection refDriver s db mig_col).1.trace =
      s.trace ++ [.collection db mig_col] := rfl
  have hok : ∀ mcol, (callCollection refDriver s db mig_col).2 = .ok mcol →
      db.Name ∈ s.backend.dbs := by
    intro mcol hc
    obtain ⟨⟨dbs, cols, docs, faults, nk⟩, tr⟩ := s
    simp only [callCollection, refDriver, World.Collection, World.pop] at hc
    cases faults with
    | nil =>
      simp only at hc
      split at hc
      · rename_i hx; exact hx.1
      · simp at hc
    | cons f fs =>
      cases f with
      | none =>
        simp only at hc
        split at hc
        · rename_i hx; exact hx.1
        · simp at hc
      | some err => simp at hc
  rcases hc : callCollection refDriver s db mig_col with ⟨s1, r⟩
  rw [hc] at htr hdata hok
  simp only at htr hdata hok
  simp only [World.data, Prod.mk.injEq] at hdata
  have hl : s.backend.ledger db.Name = s1.backend.ledger db.Name := by
    simp only [World.ledger, hdata.2.2]
  cases r with
  | error err =>
    exact ⟨[.collection db mig_col], htr, rfl,
      fun _ => ⟨by rw [hl], List.prefix_refl _⟩⟩
  | ok mcol =>
    simp only []
    have hn : db.Name ∈ s1.backend.dbs := by rw [hdata.1]; exact hok mcol rfl
    obtain ⟨evs, h1, h2, h3⟩ := migrateLoop_take_ledger db.Name (some db) mcol pre post s1 hn
    refine ⟨.collection db mig_col :: evs, by rw [h1, htr]; simp, by simp [h2, Event.isRunEvent],
      fun hr => ?_⟩
    rw [hl]
    exact h3 (by simpa [removeCalls] using hr)

/-- The reference backend does change and delete stored rows when asked to:
that rows stay as they are is a property of the calls the engine issues. -/
theorem ref_backend_can_change_rows :
    (callUpdateDocument refDriver ⟨shopWorldWithOrders, []⟩ shopLedger "orders"
      { _key := "orders", checksum := "ee" }).1.backend.ledger "shop"
      = [{ key := .named "orders", attrs := [] }] ∧
    (callRemoveDocument refDriver ⟨shopWorldWithOrders, []⟩ shopLedger "orders").1.backend.ledger
      "shop" = [] := by
  constructor <;> rfl

/-- C16, counterexample. The ledger of "shop" holds a row; the catalog is the
single change DeleteDB("shop"). The run completes, and the row that existed
before the run is gone with the database. -/
theorem delete_database_drops_ledger :
    shopWorldWithOrders.ledger "shop" =
      [{ key := .named "orders", attrs := [("checksum", "bb")] }] ∧
    migrateNow refDriver (some shopDb) [⟨.database dropShop, none⟩]
        ⟨shopWorldWithOrders, []⟩ =
      (⟨emptyWorld, [.collection shopDb mig_col, .documentExists shopLedger "0009_drop",
          .apply (.database dropShop), .removeDatabase shopDb]⟩,
        [⟨.database dropShop, none⟩], .ret none) ∧
    (migrateNow refDriver (some shopDb) [⟨.database dropShop, none⟩]
      ⟨shopWorldWithOrders, []⟩).1.backend.ledger "shop" = [] := by
  refine ⟨?_, ?_, ?_⟩ <;> rfl

/-- C16 as amended (append-only ledger), on the reference backend with any
fault plan, for every run of `migrateNow` over a catalog, completed or
aborted. The run over the first `k` entries of the catalog ends in the state
in which the run over the whole catalog stands after these entries, or in
which it has already ended. If the run issues no delete-database call, then
for every `k` the rows that existed before the run are, unchanged and in
order, the first rows of the ledger after the first `k` entries, and the rows
of the ledger after the first `k` entries (those that existed before the run
and those written up to there) are, unchanged and in order, the first rows of
the ledger at the end: rows are only appended. Every event the run issues is
the opening of the ledger collection, a ledger lookup, a row creation, an
apply or undo invocation or a database-level call of a variant; none is the
update or the removal of a document. -/
theorem ledger_append_only (db : DbHandle) (pms : List PairedMigrations) (s : St World) :
    (removeCalls (eventsSince s (migrateNow refDriver (some db) pms s).1) = 0 →
      ∀ k : Nat,
        s.backend.ledger db.Name <+:
          (migrateNow refDriver (some db) (pms.take k) s).1.backend.ledger db.Name ∧
        (migrateNow refDriver (some db) (pms.take k) s).1.backend.ledger db.Name <+:
          (migrateNow refDriver (some db) pms s).1.backend.ledger db.Name) ∧
    (∀ ev ∈ eventsSince s (migrateNow refDriver (some db) pms s).1,
      ev.isRunEvent = true ∧
      (∀ col key doc, ev ≠ .updateDocument col key doc) ∧
      (∀ col key, ev ≠ .removeDocument col key)) := by
  constructor
  · intro hr k
    obtain ⟨evs, h1, -, h3⟩ := migrateNow_take_ledger db (pms.take k) (pms.drop k) s
    rw [List.take_append_drop] at h1 h3
    rw [eventsSince_append _ _ _ h1] at hr
    exact h3 hr
  · intro ev hev
    obtain ⟨evs, h1, h2, -⟩ := migrateNow_take_ledger db pms [] s
    rw [List.append_nil] at h1
    rw [eventsSince_append _ _ _ h1] at hev
    have hrun := List.all_eq_true.mp h2 ev hev
    refine ⟨hrun, ?_, ?_⟩
    · rintro col key doc rfl
      simp [Event.isRunEvent] at hrun
    · rintro col key rfl
      simp [Event.isRunEvent] at hrun

/-- Witness of C16: from an empty ledger, "orders" is recorded, then the run
aborts on a refused CreateDB("shop"); the row written for "orders" is still
the ledger at the end. -/
theorem ledger_append_only_witness :
    (migrateNow refDriver (some shopDb) ordersThenRecreate ⟨shopWorld, []⟩).2.2 ≠ .ret none ∧
    (migrateNow refDriver (some shopDb) (ordersThenRecreate.take 1)
      ⟨shopWorld, []⟩).1.backend.ledger "shop" = [{ key := .generated 0, attrs := [] }] ∧
    (migrateNow refDriver (some shopDb) ordersThenRecreate
      ⟨shopWorld, []⟩).1.backend.ledger "shop" = [{ key := .generated 0, attrs := [] }] ∧
    ((⟨shopWorld, []⟩ : St World).backend.ledger shopDb.Name <+:
        (migrateNow refDriver (some shopDb) (ordersThenRecreate.take 1)
          ⟨shopWorld, []⟩).1.backend.ledger shopDb.Name ∧
      (migrateNow refDriver (some shopDb) (ordersThenRecreate.take 1)
          ⟨shopWorld, []⟩).1.backend.ledger shopDb.Name <+:
        (migrateNow refDriver (some shopDb) ordersThenRecreate
          ⟨shopWorld, []⟩).1.backend.ledger shopDb.Name) :=
  ⟨by decide, by rfl, by rfl,
    (ledger_append_only shopDb ordersThenRecreate ⟨shopWorld, []⟩).1 (by rfl) 1⟩

end Arangomigo
